import Mathlib

/-!
Shallow embedding of the address-classification and range-validation engine of
ipaddrcheck (src/src/ipaddrcheck_functions.c).

String-level predicates embed the anchored PCRE patterns used by the C code as
deterministic matchers over lists of characters; every pattern in the source is
of a shape (character classes disjoint from the literal that follows them) for
which greedy matching has no backtracking, so the deterministic transliteration
is exact.  The default PCRE options are reflected faithfully: the dot does not
match a newline, and the end anchor also matches just before one final newline.

The libcidr dependency and the header with the reserved-block string constants
are not part of the provided source; they are modelled from the specification
(sections 3 and 6), with doc comments marking each modelled definition.
-/

namespace Ipaddrcheck

/-! The C success and failure codes, re-expressed as the two-valued result type
    the specification asks for (section 9 of the spec). -/

def RESULT_SUCCESS : Bool := true

def RESULT_FAILURE : Bool := false

def LOOPBACK_ALLOWED : Bool := true

/-! Character classes appearing in the PCRE patterns of the source. -/

def isNzDigitCh (c : Char) : Bool :=
  c = '1' || c = '2' || c = '3' || c = '4' ||
  c = '5' || c = '6' || c = '7' || c = '8' || c = '9'

def isDigitCh (c : Char) : Bool :=
  c = '0' || isNzDigitCh c

def isHexCh (c : Char) : Bool :=
  isDigitCh c ||
  c = 'a' || c = 'b' || c = 'c' || c = 'd' || c = 'e' || c = 'f' ||
  c = 'A' || c = 'B' || c = 'C' || c = 'D' || c = 'E' || c = 'F'

/-- Character class of the IPv4 range gate pattern, [0-9\.]. -/
def isV4RangeCh (c : Char) : Bool := isDigitCh c || c = '.'

/-- Character class of the IPv6 patterns, [0-9a-fA-F\:] (also the IPv6 range
    gate class [0-9a-fA-F:]). -/
def isV6Ch (c : Char) : Bool := isHexCh c || c = ':'

/-- PCRE end anchor with default options: end of subject, or just before one
    final newline. -/
def atDollar : List Char → Bool
  | [] => true
  | [c] => c = '\n'
  | _ => false

def expectChar (c : Char) : List Char → Option (List Char)
  | [] => none
  | d :: rest => if d = c then some rest else none

/-- Greedy match of one-or-more characters of a class (a PCRE plus).  In every
    pattern of the source the item that follows such a plus begins with a
    character outside the class, so the greedy match is the only viable one. -/
def matchPlus (p : Char → Bool) : List Char → Option (List Char)
  | [] => none
  | c :: rest => if p c then some (rest.dropWhile p) else none

/-- Greedy match of one octet sub-pattern ([1-9]\d{0,2}|0) of the IPv4
    patterns.  In the source patterns an octet is always followed by a dot, a
    slash or the end anchor, never by a digit, so greedy matching is exact. -/
def matchOctet : List Char → Option (List Char)
  | [] => none
  | c :: rest =>
    if isNzDigitCh c then
      match rest with
      | [] => some []
      | d1 :: r1 =>
        if isDigitCh d1 then
          match r1 with
          | [] => some []
          | d2 :: r2 => if isDigitCh d2 then some r2 else some r1
        else some rest
    else if c = '0' then some rest else none

/-- Greedy match of the prefix-number sub-pattern ([1-9]\d*|0) of the IPv4
    CIDR pattern; it is followed by the end anchor, never by a digit. -/
def matchPrefixNum : List Char → Option (List Char)
  | [] => none
  | c :: rest =>
    if isNzDigitCh c then some (rest.dropWhile isDigitCh)
    else if c = '0' then some rest else none

/-- Greedy match of the sub-pattern \d{1,3} of the IPv6 CIDR pattern; it is
    followed by the end anchor, never by a digit. -/
def matchDigits13 : List Char → Option (List Char)
  | [] => none
  | c :: rest =>
    if isDigitCh c then
      match rest with
      | [] => some []
      | d1 :: r1 =>
        if isDigitCh d1 then
          match r1 with
          | [] => some []
          | d2 :: r2 => if isDigitCh d2 then some r2 else some r1
        else some rest
    else none

/-- Match of the dotted part ((([1-9]\d{0,2}|0)\.){3}([1-9]\d{0,2}|0)) shared
    by the IPv4 single and CIDR patterns. -/
def matchIPv4Dotted (s : List Char) : Option (List Char) :=
  ((((((matchOctet s).bind (expectChar '.')).bind matchOctet).bind
      (expectChar '.')).bind matchOctet).bind (expectChar '.')).bind matchOctet

/-- is_ipv4_cidr from the source: the anchored pattern
    ^((([1-9]\d{0,2}|0)\.){3}([1-9]\d{0,2}|0)\/([1-9]\d*|0))$. -/
def is_ipv4_cidr (address_str : List Char) : Bool :=
  match ((matchIPv4Dotted address_str).bind (expectChar '/')).bind matchPrefixNum with
  | some r => atDollar r
  | none => false

/-- is_ipv4_single from the source: the anchored pattern
    ^((([1-9]\d{0,2}|0)\.){3}([1-9]\d{0,2}|0))$. -/
def is_ipv4_single (address_str : List Char) : Bool :=
  match matchIPv4Dotted address_str with
  | some r => atDollar r
  | none => false

/-- is_ipv6_cidr from the source: the anchored pattern
    ^((([0-9a-fA-F\:])+)(\/\d{1,3}))$. -/
def is_ipv6_cidr (address_str : List Char) : Bool :=
  match ((matchPlus isV6Ch address_str).bind (expectChar '/')).bind matchDigits13 with
  | some r => atDollar r
  | none => false

/-- is_ipv6_single from the source: the anchored pattern
    ^(([0-9a-fA-F\:])+)$. -/
def is_ipv6_single (address_str : List Char) : Bool :=
  match matchPlus isV6Ch address_str with
  | some r => atDollar r
  | none => false

/-- is_any_cidr from the source. -/
def is_any_cidr (address_str : List Char) : Bool :=
  if is_ipv4_cidr address_str = RESULT_SUCCESS ∨ is_ipv6_cidr address_str = RESULT_SUCCESS
  then RESULT_SUCCESS else RESULT_FAILURE

/-- is_any_single from the source. -/
def is_any_single (address_str : List Char) : Bool :=
  if is_ipv4_single address_str = RESULT_SUCCESS ∨ is_ipv6_single address_str = RESULT_SUCCESS
  then RESULT_SUCCESS else RESULT_FAILURE

/-! duplicate_double_colons embeds the unanchored pattern .*(::).*\1.  With the
    default PCRE options it matches exactly when the subject splits as
    u ++ "::" ++ v ++ "::" ++ w where the in-between part v contains no
    newline (the dots cannot cross a newline; the unanchored search and the
    leading .* absorb u; the backreference repeats the captured "::"). -/

/-- Does the list start with the two characters "::"? -/
def startsDC : List Char → Bool
  | c1 :: c2 :: _ => c1 = ':' && c2 = ':'
  | _ => false

/-- Scan for a later occurrence of "::" reachable from the current position
    without crossing a newline (the .* between the capture and the
    backreference). -/
def dcAfter : List Char → Bool
  | [] => false
  | c :: rest => startsDC (c :: rest) || (c ≠ '\n' && dcAfter rest)

/-- Try every start position: an occurrence of "::" here, followed, at least
    two characters further, by another one with no newline in between. -/
def dupColonScan : List Char → Bool
  | [] => false
  | c :: rest => (startsDC (c :: rest) && dcAfter rest.tail) || dupColonScan rest

/-- duplicate_double_colons from the source: the pattern .*(::).*\1. -/
def duplicate_double_colons (address_str : List Char) : Bool :=
  dupColonScan address_str

/-- Number of starting positions of the substring "::" (overlapping
    occurrences counted) — the literal reading of the claim wording
    "the substring :: occurs more than once". -/
def countDoubleColon : List Char → Nat
  | [] => 0
  | c :: rest => (if startsDC (c :: rest) then 1 else 0) + countDoubleColon rest

/-! Decimal values of digit strings, used to state the octet-range side
    conditions of the claims. -/

def digitVal (c : Char) : Nat := c.toNat - 48

def decStep (a : Nat) (c : Char) : Nat := 10 * a + digitVal c

def decimalVal (l : List Char) : Nat := l.foldl decStep 0

/-- Strings admissible as one octet in the claims: nonempty, all digits, no
    leading zero, value at most 255. -/
abbrev OctetStr (l : List Char) : Prop :=
  l ≠ [] ∧ (∀ c ∈ l, isDigitCh c = true) ∧ (l.head? = some '0' → l = ['0']) ∧
    decimalVal l ≤ 255

/-- Strings admissible as the appended prefix number in the claims: nonempty,
    all digits, no leading zero, value at most 32. -/
abbrev PrefixNumStr (l : List Char) : Prop :=
  l ≠ [] ∧ (∀ c ∈ l, isDigitCh c = true) ∧ (l.head? = some '0' → l = ['0']) ∧
    decimalVal l ≤ 32

/-- Is the head of the remainder a non-digit (or the remainder empty)?  Under
    this condition the greedy octet match is exact. -/
def headNotDigit : List Char → Bool
  | [] => true
  | c :: _ => !isDigitCh c

lemma digit_char_cases {c : Char} (h : isDigitCh c = true) :
    c = '0' ∨ isNzDigitCh c = true := by
  simpa only [isDigitCh, Bool.or_eq_true, decide_eq_true_eq] using h

lemma isNzDigitCh_of {c : Char} (h : isDigitCh c = true) (h0 : c ≠ '0') :
    isNzDigitCh c = true := by
  rcases digit_char_cases h with rfl | hnz
  · exact absurd rfl h0
  · exact hnz

lemma digitVal_ge_one {c : Char} (h : isNzDigitCh c = true) : 1 ≤ digitVal c := by
  simp only [isNzDigitCh, Bool.or_eq_true, decide_eq_true_eq] at h
  rcases h with (((((((rfl | rfl) | rfl) | rfl) | rfl) | rfl) | rfl) | rfl) | rfl <;> decide

lemma foldl_decStep_ge (l : List Char) (a : Nat) :
    a * 10 ^ l.length ≤ l.foldl decStep a := by
  induction l generalizing a with
  | nil => simp
  | cons c t ih =>
    calc a * 10 ^ (c :: t).length = (10 * a) * 10 ^ t.length := by
          simp [List.length_cons, pow_succ]; ring
      _ ≤ (10 * a + digitVal c) * 10 ^ t.length :=
          Nat.mul_le_mul_right _ (Nat.le_add_right _ _)
      _ ≤ t.foldl decStep (10 * a + digitVal c) := ih _
      _ = (c :: t).foldl decStep a := by simp [decStep]

lemma octetStr_length_le {l : List Char} (h : OctetStr l) : l.length ≤ 3 := by
  rcases h with ⟨hne, hdig, hzero, hval⟩
  by_contra hlen
  push_neg at hlen
  rcases l with _ | ⟨c, t⟩
  · exact hne rfl
  · have hlt : 3 ≤ t.length := by
      simp only [List.length_cons] at hlen
      omega
    have hc : isDigitCh c = true := hdig c (by simp)
    have hcne : c ≠ '0' := by
      rintro rfl
      have h00 := hzero (by simp)
      simp only [List.cons.injEq, true_and] at h00
      rw [h00] at hlt
      simp at hlt
    have hnz := isNzDigitCh_of hc hcne
    have hge : 1000 ≤ decimalVal (c :: t) := by
      calc (1000 : Nat) = 1 * 10 ^ 3 := by norm_num
        _ ≤ digitVal c * 10 ^ t.length :=
            Nat.mul_le_mul (digitVal_ge_one hnz) (Nat.pow_le_pow_right (by norm_num) hlt)
        _ ≤ t.foldl decStep (digitVal c) := foldl_decStep_ge t _
        _ = decimalVal (c :: t) := by simp [decimalVal, decStep]
    omega

lemma matchOctet_append {l : List Char} (rest : List Char) (h : OctetStr l)
    (hr : headNotDigit rest = true) : matchOctet (l ++ rest) = some rest := by
  have hlen := octetStr_length_le h
  rcases h with ⟨hne, hdig, hzero, hval⟩
  rcases l with _ | ⟨a, _ | ⟨b, _ | ⟨c, _ | ⟨d, t⟩⟩⟩⟩
  · exact absurd rfl hne
  · have ha := hdig a (by simp)
    rcases digit_char_cases ha with rfl | hnz
    · have h0 : isNzDigitCh '0' = false := by decide
      simp [matchOctet, h0]
    · rcases rest with _ | ⟨e, r⟩
      · simp [matchOctet, hnz]
      · have he : isDigitCh e = false := by simpa [headNotDigit] using hr
        simp [matchOctet, hnz, he]
  · have ha := hdig a (by simp)
    have hane : a ≠ '0' := by
      rintro rfl
      have := hzero (by simp)
      simp at this
    have hnz := isNzDigitCh_of ha hane
    have hb : isDigitCh b = true := hdig b (by simp)
    rcases rest with _ | ⟨e, r⟩
    · simp [matchOctet, hnz, hb]
    · have he : isDigitCh e = false := by simpa [headNotDigit] using hr
      simp [matchOctet, hnz, hb, he]
  · have ha := hdig a (by simp)
    have hane : a ≠ '0' := by
      rintro rfl
      have := hzero (by simp)
      simp at this
    have hnz := isNzDigitCh_of ha hane
    have hb : isDigitCh b = true := hdig b (by simp)
    have hc : isDigitCh c = true := hdig c (by simp)
    simp [matchOctet, hnz, hb, hc]
  · simp at hlen

lemma matchPrefixNum_eq {p : List Char} (h : PrefixNumStr p) :
    matchPrefixNum p = some [] := by
  rcases h with ⟨hne, hdig, hzero, hval⟩
  rcases p with _ | ⟨c, t⟩
  · exact absurd rfl hne
  · have hc := hdig c (by simp)
    rcases digit_char_cases hc with rfl | hnz
    · have := hzero (by simp)
      have h0 : isNzDigitCh '0' = false := by decide
      simp only [this]
      simp [matchPrefixNum, h0]
    · have hdrop : t.dropWhile isDigitCh = [] := by
        rw [List.dropWhile_eq_nil_iff]
        intro x hx
        exact hdig x (by simp [hx])
      simp [matchPrefixNum, hnz, hdrop]

lemma matchIPv4Dotted_append {o1 o2 o3 o4 : List Char} (rest : List Char)
    (h1 : OctetStr o1) (h2 : OctetStr o2) (h3 : OctetStr o3) (h4 : OctetStr o4)
    (hr : headNotDigit rest = true) :
    matchIPv4Dotted (o1 ++ '.' :: (o2 ++ '.' :: (o3 ++ '.' :: (o4 ++ rest)))) = some rest := by
  have hdot : ∀ x : List Char, headNotDigit ('.' :: x) = true := fun _ => rfl
  have hexp : ∀ x : List Char, expectChar '.' ('.' :: x) = some x := by
    intro x
    simp [expectChar]
  unfold matchIPv4Dotted
  rw [matchOctet_append _ h1 (hdot _)]
  simp only [Option.some_bind, hexp]
  rw [matchOctet_append _ h2 (hdot _)]
  simp only [Option.some_bind, hexp]
  rw [matchOctet_append _ h3 (hdot _)]
  simp only [Option.some_bind, hexp]
  rw [matchOctet_append _ h4 hr]

/-- C3: every four-octet dotted-decimal string with octets in 0..255 and no
    leading zeros satisfies is_ipv4_single and fails is_ipv4_cidr; appending a
    slash and a no-leading-zero prefix number in 0..32 makes is_ipv4_cidr
    succeed and is_ipv4_single fail. -/
theorem c3_ipv4_single_cidr_formats (o1 o2 o3 o4 p : List Char)
    (h1 : OctetStr o1) (h2 : OctetStr o2) (h3 : OctetStr o3) (h4 : OctetStr o4)
    (hp : PrefixNumStr p) :
    is_ipv4_single (o1 ++ '.' :: (o2 ++ '.' :: (o3 ++ '.' :: o4))) = RESULT_SUCCESS ∧
    is_ipv4_cidr (o1 ++ '.' :: (o2 ++ '.' :: (o3 ++ '.' :: o4))) = RESULT_FAILURE ∧
    is_ipv4_cidr (o1 ++ '.' :: (o2 ++ '.' :: (o3 ++ '.' :: (o4 ++ '/' :: p)))) = RESULT_SUCCESS ∧
    is_ipv4_single (o1 ++ '.' :: (o2 ++ '.' :: (o3 ++ '.' :: (o4 ++ '/' :: p)))) = RESULT_FAILURE := by
  have hbare : matchIPv4Dotted (o1 ++ '.' :: (o2 ++ '.' :: (o3 ++ '.' :: o4))) = some [] := by
    have := matchIPv4Dotted_append [] h1 h2 h3 h4 rfl
    simpa using this
  have hslash :
      matchIPv4Dotted (o1 ++ '.' :: (o2 ++ '.' :: (o3 ++ '.' :: (o4 ++ '/' :: p)))) =
        some ('/' :: p) :=
    matchIPv4Dotted_append ('/' :: p) h1 h2 h3 h4 rfl
  refine ⟨?_, ?_, ?_, ?_⟩
  · simp [is_ipv4_single, hbare, atDollar, RESULT_SUCCESS]
  · simp [is_ipv4_cidr, hbare, expectChar, RESULT_FAILURE]
  · simp [is_ipv4_cidr, hslash, expectChar, matchPrefixNum_eq hp, atDollar, RESULT_SUCCESS]
  · rcases p with _ | ⟨c, t⟩
    · exact absurd rfl hp.1
    · simp [is_ipv4_single, hslash, atDollar, RESULT_FAILURE]

/-- C3 witness: the theorem applied at the concrete octets of 192.0.2.1 and the
    prefix number 24. -/
theorem c3_witness :
    is_ipv4_single "192.0.2.1".data = RESULT_SUCCESS ∧
    is_ipv4_cidr "192.0.2.1".data = RESULT_FAILURE ∧
    is_ipv4_cidr "192.0.2.1/24".data = RESULT_SUCCESS ∧
    is_ipv4_single "192.0.2.1/24".data = RESULT_FAILURE := by
  have e1 : "192.0.2.1".data =
      "192".data ++ '.' :: ("0".data ++ '.' :: ("2".data ++ '.' :: "1".data)) := by decide
  have e2 : "192.0.2.1/24".data =
      "192".data ++ '.' :: ("0".data ++ '.' :: ("2".data ++ '.' :: ("1".data ++ '/' :: "24".data))) := by
    decide
  rw [e1, e2]
  exact c3_ipv4_single_cidr_formats "192".data "0".data "2".data "1".data "24".data
    (by decide) (by decide) (by decide) (by decide) (by decide)

/-! Characterization of duplicate_double_colons (claim C4). -/

lemma startsDC_iff (l : List Char) : startsDC l = true ↔ ∃ t, l = ':' :: ':' :: t := by
  rcases l with _ | ⟨a, _ | ⟨b, t⟩⟩
  · simp [startsDC]
  · simp [startsDC]
  · simp only [startsDC, Bool.and_eq_true, decide_eq_true_eq]
    constructor
    · rintro ⟨rfl, rfl⟩
      exact ⟨t, rfl⟩
    · rintro ⟨t', ht⟩
      simp only [List.cons.injEq] at ht
      exact ⟨ht.1, ht.2.1⟩

lemma dcAfter_iff (r : List Char) :
    dcAfter r = true ↔ ∃ v w, r = v ++ ':' :: ':' :: w ∧ '\n' ∉ v := by
  induction r with
  | nil =>
    constructor
    · intro h
      simp [dcAfter] at h
    · rintro ⟨v, w, h, -⟩
      cases v <;> simp_all
  | cons c rest ih =>
    simp only [dcAfter, Bool.or_eq_true, Bool.and_eq_true, decide_eq_true_eq]
    constructor
    · rintro (h | ⟨hc, h⟩)
      · rcases (startsDC_iff _).mp h with ⟨t, ht⟩
        exact ⟨[], t, by simp [ht], by simp⟩
      · rcases ih.mp h with ⟨v, w, hv, hnl⟩
        refine ⟨c :: v, w, by simp [hv], ?_⟩
        simp only [List.mem_cons, not_or]
        exact ⟨fun hEq => hc hEq.symm, hnl⟩
    · rintro ⟨v, w, hv, hnl⟩
      rcases v with _ | ⟨a, v'⟩
      · simp only [List.nil_append] at hv
        exact Or.inl ((startsDC_iff _).mpr ⟨w, hv⟩)
      · simp only [List.cons_append, List.cons.injEq] at hv
        rcases hv with ⟨rfl, hv⟩
        simp only [List.mem_cons, not_or] at hnl
        exact Or.inr ⟨fun hEq => hnl.1 hEq.symm, ih.mpr ⟨v', w, hv, hnl.2⟩⟩

lemma dupColonScan_iff (s : List Char) :
    dupColonScan s = true ↔
      ∃ u v w, s = u ++ ':' :: ':' :: (v ++ ':' :: ':' :: w) ∧ '\n' ∉ v := by
  induction s with
  | nil =>
    constructor
    · intro h
      simp [dupColonScan] at h
    · rintro ⟨u, v, w, h, -⟩
      cases u <;> simp_all
  | cons c rest ih =>
    simp only [dupColonScan, Bool.or_eq_true, Bool.and_eq_true]
    constructor
    · rintro (⟨hs, hafter⟩ | h)
      · rcases (startsDC_iff _).mp hs with ⟨t, ht⟩
        simp only [List.cons.injEq] at ht
        rcases ht with ⟨rfl, rfl, rfl⟩
        rcases (dcAfter_iff _).mp (by simpa using hafter) with ⟨v, w, hv, hnl⟩
        exact ⟨[], v, w, by simp [hv], hnl⟩
      · rcases ih.mp h with ⟨u, v, w, hu, hnl⟩
        exact ⟨c :: u, v, w, by rw [hu]; rfl, hnl⟩
    · rintro ⟨u, v, w, hu, hnl⟩
      rcases u with _ | ⟨a, u'⟩
      · simp only [List.nil_append, List.cons.injEq] at hu
        rcases hu with ⟨rfl, rfl⟩
        refine Or.inl ⟨by simp [startsDC], ?_⟩
        simpa using (dcAfter_iff _).mpr ⟨v, w, rfl, hnl⟩
      · simp only [List.cons_append, List.cons.injEq] at hu
        rcases hu with ⟨rfl, hu⟩
        exact Or.inr (ih.mpr ⟨u', v, w, hu, hnl⟩)

/-- C4 counterexample: in ":::" the literal substring "::" occurs more than
    once (at two overlapping starting positions), yet duplicate_double_colons
    returns failure, so the claim as stated is false. -/
theorem c4_claim_counterexample :
    duplicate_double_colons ":::".data = RESULT_FAILURE ∧
    1 < countDoubleColon ":::".data := by
  decide

/-- C4 (amended): duplicate_double_colons returns success exactly when the
    string contains two non-overlapping occurrences of "::" with no newline
    between them, i.e. splits as u ++ "::" ++ v ++ "::" ++ w with no newline in
    v; in particular it succeeds on "2001::db8::1" and fails on
    "2001:db8::1". -/
theorem c4_duplicate_double_colons_characterization :
    (∀ s : List Char,
      duplicate_double_colons s = RESULT_SUCCESS ↔
        ∃ u v w, s = u ++ ':' :: ':' :: (v ++ ':' :: ':' :: w) ∧ '\n' ∉ v) ∧
    duplicate_double_colons "2001::db8::1".data = RESULT_SUCCESS ∧
    duplicate_double_colons "2001:db8::1".data = RESULT_FAILURE := by
  refine ⟨fun s => ?_, by decide, by decide⟩
  simpa [duplicate_double_colons, RESULT_SUCCESS] using dupColonScan_iff s

/-! The parsed-address data model.  The address parser and container library
    (libcidr) is an external collaborator that is not part of the provided
    source, so it is modelled from the spec (sections 3 and 6): a parsed value
    is tagged with a protocol family (IPv4, IPv6, or none/invalid) and carries
    an address value and a prefix length. -/

inductive Proto where
  | v4 : Proto
  | v6 : Proto
  | invalid : Proto
deriving DecidableEq

def INVALID_PROTO : Proto := .invalid

def CIDR_IPV4 : Proto := .v4

def CIDR_IPV6 : Proto := .v6

structure CIDR where
  proto : Proto
  addr : Nat
  pflen : Nat
deriving DecidableEq

def protoWidth : Proto → Nat
  | .v4 => 32
  | .v6 => 128
  | .invalid => 0

def CIDR.width (a : CIDR) : Nat := protoWidth a.proto

/-- Modelled from the spec (section 6): the protocol family of a parsed value. -/
def cidr_get_proto (address : CIDR) : Proto := address.proto

/-- Modelled from the spec (sections 3 and 6): the declared prefix length. -/
def cidr_get_pflen (address : CIDR) : Nat := address.pflen

/-- Modelled from the spec (section 6 and glossary): the network address is
    the value with all host-portion bits cleared; family and prefix length are
    kept. -/
def cidr_addr_network (address : CIDR) : CIDR :=
  ⟨address.proto,
    address.addr / 2 ^ (address.width - address.pflen) * 2 ^ (address.width - address.pflen),
    address.pflen⟩

/-- Modelled from the spec (section 6 and glossary): the broadcast address is
    the value with all host-portion bits set. -/
def cidr_addr_broadcast (address : CIDR) : CIDR :=
  ⟨address.proto,
    address.addr / 2 ^ (address.width - address.pflen) * 2 ^ (address.width - address.pflen) +
      (2 ^ (address.width - address.pflen) - 1),
    address.pflen⟩

/-- Modelled from the spec (section 6): equality of two parsed values — same
    family, same address value, same prefix length.  The C function returns a
    status (0 when equal, negative when not), not a three-way order. -/
def cidr_equals (a b : CIDR) : Int :=
  if a.proto = b.proto ∧ a.addr = b.addr ∧ a.pflen = b.pflen then 0 else -1

/-- Modelled from the spec (section 6): whether the network big contains the
    address little — same (valid) family and agreement on the first
    pflen(big) bits of the address; 0 when contained, negative when not. -/
def cidr_contains (big little : CIDR) : Int :=
  if big.proto ≠ .invalid ∧ big.proto = little.proto ∧
      big.addr / 2 ^ (big.width - big.pflen) = little.addr / 2 ^ (big.width - big.pflen)
  then 0 else -1

/-! A model of the textual address parser (libcidr cidr_from_str), modelled
    from the spec: dotted-decimal IPv4 and colon-hex IPv6 with an optional
    /prefix suffix; unparseable text yields the invalid tag, never a fault. -/

/-- Split a list at every occurrence of a separator character. -/
def splitOnChar (sep : Char) : List Char → List (List Char)
  | [] => [[]]
  | c :: rest =>
    match splitOnChar sep rest with
    | [] => [[]]
    | h :: t => if c = sep then [] :: h :: t else (c :: h) :: t

def parseDecimal (l : List Char) : Option Nat :=
  if l ≠ [] ∧ (∀ c ∈ l, isDigitCh c = true) then some (decimalVal l) else none

def parseOctets : List (List Char) → Option (List Nat)
  | [] => some []
  | g :: gs =>
    match parseDecimal g, parseOctets gs with
    | some v, some vs => if v ≤ 255 then some (v :: vs) else none
    | _, _ => none

/-- Modelled from the spec: dotted-decimal IPv4 address parsing — four
    dot-separated decimal octets, each at most 255. -/
def parseIPv4Addr (l : List Char) : Option Nat :=
  match parseOctets (splitOnChar '.' l) with
  | some [a, b, c, d] => some (((a * 256 + b) * 256 + c) * 256 + d)
  | _ => none

/-- Table of hex digit values. -/
def hexTable : List (Char × Nat) :=
  [('1', 1), ('2', 2), ('3', 3), ('4', 4), ('5', 5), ('6', 6), ('7', 7),
   ('8', 8), ('9', 9), ('a', 10), ('A', 10), ('b', 11), ('B', 11),
   ('c', 12), ('C', 12), ('d', 13), ('D', 13), ('e', 14), ('E', 14),
   ('f', 15), ('F', 15)]

/-- Value of one hex digit ('0' and any character outside the hex classes map
    to 0; parseHexGroup only applies it to hex characters). -/
def hexVal (c : Char) : Nat := (hexTable.lookup c).getD 0

def hexStep (a : Nat) (c : Char) : Nat := 16 * a + hexVal c

def hexGroupVal (l : List Char) : Nat := l.foldl hexStep 0

def parseHexGroup (l : List Char) : Option Nat :=
  if l ≠ [] ∧ l.length ≤ 4 ∧ (∀ c ∈ l, isHexCh c = true) then some (hexGroupVal l)
  else none

def parseGroups : List (List Char) → Option (List Nat)
  | [] => some []
  | g :: gs =>
    match parseHexGroup g, parseGroups gs with
    | some v, some vs => some (v :: vs)
    | _, _ => none

def groupStep (a g : Nat) : Nat := a * 65536 + g

def groupsVal (gs : List Nat) : Nat := gs.foldl groupStep 0

/-- Break a list around the first occurrence of "::". -/
def breakDC : List Char → Option (List Char × List Char)
  | [] => none
  | c :: rest =>
    if startsDC (c :: rest) then some ([], rest.tail)
    else
      match breakDC rest with
      | some (pre, post) => some (c :: pre, post)
      | none => none

/-- Modelled from the spec: colon-hex IPv6 address parsing — eight
    colon-separated groups of at most four hex digits, with at most one "::"
    zero-compression marker standing for the missing zero groups.  (The spec
    notes the real parser may be more liberal about a duplicated "::"; the
    engine guards against that separately with duplicate_double_colons.) -/
def parseIPv6Addr (l : List Char) : Option Nat :=
  if countDoubleColon l = 0 then
    match parseGroups (splitOnChar ':' l) with
    | some gs => if gs.length = 8 then some (groupsVal gs) else none
    | none => none
  else if countDoubleColon l = 1 then
    match breakDC l with
    | some (pre, post) =>
      match (if pre = [] then some [] else parseGroups (splitOnChar ':' pre)),
            (if post = [] then some [] else parseGroups (splitOnChar ':' post)) with
      | some gsL, some gsR =>
        if gsL.length + gsR.length ≤ 7 then
          some (groupsVal (gsL ++ List.replicate (8 - gsL.length - gsR.length) 0 ++ gsR))
        else none
      | _, _ => none
    | none => none
  else none

def invalidCIDR : CIDR := ⟨.invalid, 0, 0⟩

/-- Modelled from the spec (section 6): parse a textual address, optionally
    with a /prefix suffix, into a tagged value; a bare host address gets the
    full-width prefix; unparseable text yields the invalid tag. -/
def cidr_from_str (s : List Char) : CIDR :=
  match splitOnChar '/' s with
  | [a] =>
    match parseIPv4Addr a with
    | some v => ⟨.v4, v, 32⟩
    | none =>
      match parseIPv6Addr a with
      | some v => ⟨.v6, v, 128⟩
      | none => invalidCIDR
  | [a, p] =>
    match parseDecimal p with
    | none => invalidCIDR
    | some n =>
      match parseIPv4Addr a with
      | some v => if n ≤ 32 then ⟨.v4, v, n⟩ else invalidCIDR
      | none =>
        match parseIPv6Addr a with
        | some v => if n ≤ 128 then ⟨.v6, v, n⟩ else invalidCIDR
        | none => invalidCIDR
  | _ => invalidCIDR

/-! The reserved address block table.  Modelled from the spec (section 3): the
    header defining these string constants is not part of the provided source;
    the values are the standard blocks the spec names. -/

def IPV4_MULTICAST : List Char := "224.0.0.0/4".data

def IPV4_LOOPBACK : List Char := "127.0.0.0/8".data

def IPV4_LINKLOCAL : List Char := "169.254.0.0/16".data

def IPV4_RFC1918_A : List Char := "10.0.0.0/8".data

def IPV4_RFC1918_B : List Char := "172.16.0.0/12".data

def IPV4_RFC1918_C : List Char := "192.168.0.0/16".data

def IPV4_THIS : List Char := "0.0.0.0/8".data

def IPV4_LIMITED_BROADCAST : List Char := "255.255.255.255/32".data

def IPV4_UNSPECIFIED : List Char := "0.0.0.0".data

def IPV6_MULTICAST : List Char := "ff00::/8".data

def IPV6_LINKLOCAL : List Char := "fe80::/10".data

def IPV6_LOOPBACK : List Char := "::1/128".data

/-! The semantic classifiers, transliterated from the source. -/

/-- is_valid_address from the source. -/
def is_valid_address (address : CIDR) : Bool :=
  if cidr_get_proto address ≠ INVALID_PROTO then RESULT_SUCCESS else RESULT_FAILURE

/-- is_ipv4 from the source. -/
def is_ipv4 (address : CIDR) : Bool :=
  if cidr_get_proto address = CIDR_IPV4 then RESULT_SUCCESS else RESULT_FAILURE

/-- is_ipv4_host from the source. -/
def is_ipv4_host (address : CIDR) : Bool :=
  if cidr_get_proto address = CIDR_IPV4 ∧
      (cidr_equals address (cidr_addr_network address) < 0 ∨ 31 ≤ cidr_get_pflen address)
  then RESULT_SUCCESS else RESULT_FAILURE

/-- is_ipv4_net from the source. -/
def is_ipv4_net (address : CIDR) : Bool :=
  if cidr_get_proto address = CIDR_IPV4 ∧
      cidr_equals address (cidr_addr_network address) = 0
  then RESULT_SUCCESS else RESULT_FAILURE

/-- is_ipv4_broadcast from the source. -/
def is_ipv4_broadcast (address : CIDR) : Bool :=
  if cidr_get_proto address = CIDR_IPV4 ∧
      cidr_equals address (cidr_addr_broadcast address) = 0 ∧
      cidr_get_pflen address < 31
  then RESULT_SUCCESS else RESULT_FAILURE

/-- is_ipv4_multicast from the source. -/
def is_ipv4_multicast (address : CIDR) : Bool :=
  if cidr_get_proto address = CIDR_IPV4 ∧
      cidr_contains (cidr_from_str IPV4_MULTICAST) address = 0
  then RESULT_SUCCESS else RESULT_FAILURE

/-- is_ipv4_loopback from the source. -/
def is_ipv4_loopback (address : CIDR) : Bool :=
  if cidr_get_proto address = CIDR_IPV4 ∧
      cidr_contains (cidr_from_str IPV4_LOOPBACK) address = 0
  then RESULT_SUCCESS else RESULT_FAILURE

/-- is_ipv4_link_local from the source. -/
def is_ipv4_link_local (address : CIDR) : Bool :=
  if cidr_get_proto address = CIDR_IPV4 ∧
      cidr_contains (cidr_from_str IPV4_LINKLOCAL) address = 0
  then RESULT_SUCCESS else RESULT_FAILURE

/-- is_ipv4_rfc1918 from the source. -/
def is_ipv4_rfc1918 (address : CIDR) : Bool :=
  if cidr_get_proto address = CIDR_IPV4 ∧
      (cidr_contains (cidr_from_str IPV4_RFC1918_A) address = 0 ∨
       cidr_contains (cidr_from_str IPV4_RFC1918_B) address = 0 ∨
       cidr_contains (cidr_from_str IPV4_RFC1918_C) address = 0)
  then RESULT_SUCCESS else RESULT_FAILURE

/-- is_ipv6 from the source. -/
def is_ipv6 (address : CIDR) : Bool :=
  if cidr_get_proto address = CIDR_IPV6 then RESULT_SUCCESS else RESULT_FAILURE

/-- is_ipv6_host from the source. -/
def is_ipv6_host (address : CIDR) : Bool :=
  if cidr_get_proto address = CIDR_IPV6 ∧
      (cidr_equals address (cidr_addr_network address) < 0 ∨ 127 ≤ cidr_get_pflen address)
  then RESULT_SUCCESS else RESULT_FAILURE

/-- is_ipv6_net from the source. -/
def is_ipv6_net (address : CIDR) : Bool :=
  if cidr_get_proto address = CIDR_IPV6 ∧
      cidr_equals address (cidr_addr_network address) = 0
  then RESULT_SUCCESS else RESULT_FAILURE

/-- is_ipv6_multicast from the source. -/
def is_ipv6_multicast (address : CIDR) : Bool :=
  if cidr_get_proto address = CIDR_IPV6 ∧
      cidr_contains (cidr_from_str IPV6_MULTICAST) address = 0
  then RESULT_SUCCESS else RESULT_FAILURE

/-- is_ipv6_link_local from the source. -/
def is_ipv6_link_local (address : CIDR) : Bool :=
  if cidr_get_proto address = CIDR_IPV6 ∧
      cidr_contains (cidr_from_str IPV6_LINKLOCAL) address = 0
  then RESULT_SUCCESS else RESULT_FAILURE

/-- is_any_host from the source (declared before is_valid_intf_address here,
    as the latter calls it). -/
def is_any_host (address : CIDR) : Bool :=
  if is_ipv4_host address = RESULT_SUCCESS ∨ is_ipv6_host address = RESULT_SUCCESS
  then RESULT_SUCCESS else RESULT_FAILURE

/-- is_any_net from the source. -/
def is_any_net (address : CIDR) : Bool :=
  if is_ipv4_net address = RESULT_SUCCESS ∨ is_ipv6_net address = RESULT_SUCCESS
  then RESULT_SUCCESS else RESULT_FAILURE

/-- is_valid_intf_address from the source. -/
def is_valid_intf_address (address : CIDR) (address_str : List Char)
    (allow_loopback : Bool) : Bool :=
  if is_ipv4_broadcast address = RESULT_FAILURE ∧
      is_ipv4_multicast address = RESULT_FAILURE ∧
      is_ipv6_multicast address = RESULT_FAILURE ∧
      (is_ipv4_loopback address = RESULT_FAILURE ∨ allow_loopback = LOOPBACK_ALLOWED) ∧
      cidr_equals address (cidr_from_str IPV6_LOOPBACK) ≠ 0 ∧
      cidr_equals address (cidr_from_str IPV4_UNSPECIFIED) ≠ 0 ∧
      cidr_contains (cidr_from_str IPV4_THIS) address ≠ 0 ∧
      cidr_equals address (cidr_from_str IPV4_LIMITED_BROADCAST) ≠ 0 ∧
      is_any_host address = RESULT_SUCCESS ∧
      is_any_cidr address_str = RESULT_SUCCESS
  then RESULT_SUCCESS else RESULT_FAILURE

/-! Basic facts about the result encoding and about equality with the derived
    network address. -/

lemma if_result_success (c : Prop) [Decidable c] :
    (if c then RESULT_SUCCESS else RESULT_FAILURE) = RESULT_SUCCESS ↔ c := by
  by_cases h : c <;> simp [h, RESULT_SUCCESS, RESULT_FAILURE]

lemma if_result_failure (c : Prop) [Decidable c] :
    (if c then RESULT_SUCCESS else RESULT_FAILURE) = RESULT_FAILURE ↔ ¬c := by
  by_cases h : c <;> simp [h, RESULT_SUCCESS, RESULT_FAILURE]

lemma cidr_equals_network_lt (a : CIDR) :
    cidr_equals a (cidr_addr_network a) < 0 ↔ a.addr ≠ (cidr_addr_network a).addr := by
  unfold cidr_equals
  split
  · rename_i hcond
    constructor
    · intro hlt
      exact absurd hlt (by norm_num)
    · intro hne
      exact absurd hcond.2.1 hne
  · rename_i hcond
    constructor
    · intro _ heq
      exact hcond ⟨rfl, heq, rfl⟩
    · intro _
      norm_num

lemma cidr_equals_network_eq (a : CIDR) :
    cidr_equals a (cidr_addr_network a) = 0 ↔ a.addr = (cidr_addr_network a).addr := by
  unfold cidr_equals
  split
  · rename_i hcond
    exact ⟨fun _ => hcond.2.1, fun _ => rfl⟩
  · rename_i hcond
    constructor
    · intro h
      exact absurd h (by norm_num)
    · intro heq
      exact absurd ⟨rfl, heq, rfl⟩ hcond

/-- C5: is_ipv6_host succeeds exactly when the protocol is IPv6 and either the
    address differs from its derived network address or the declared prefix
    length is at least 127; in particular it fails on "2001:db8::/64" and
    succeeds on "2001:db8::1/64". -/
theorem c5_is_ipv6_host_characterization :
    (∀ address : CIDR,
      is_ipv6_host address = RESULT_SUCCESS ↔
        cidr_get_proto address = CIDR_IPV6 ∧
          (address.addr ≠ (cidr_addr_network address).addr ∨
            127 ≤ cidr_get_pflen address)) ∧
    is_ipv6_host (cidr_from_str "2001:db8::/64".data) = RESULT_FAILURE ∧
    is_ipv6_host (cidr_from_str "2001:db8::1/64".data) = RESULT_SUCCESS := by
  refine ⟨fun a => ?_, by decide, by decide⟩
  unfold is_ipv6_host
  rw [if_result_success, cidr_equals_network_lt]

/-- C9: for IPv4 addresses with prefix length below 31, exactly one of
    is_ipv4_host and is_ipv4_net succeeds; but an IPv4 address equal to its
    derived network address with prefix length at least 31 satisfies both.
    The same overlap holds for IPv6 at prefix lengths of at least 127. -/
theorem c9_host_net_overlap :
    (∀ a : CIDR, cidr_get_proto a = CIDR_IPV4 → cidr_get_pflen a < 31 →
      (is_ipv4_host a = RESULT_SUCCESS ↔ ¬ is_ipv4_net a = RESULT_SUCCESS)) ∧
    (∀ a : CIDR, cidr_get_proto a = CIDR_IPV4 → a.addr = (cidr_addr_network a).addr →
      31 ≤ cidr_get_pflen a →
      is_ipv4_host a = RESULT_SUCCESS ∧ is_ipv4_net a = RESULT_SUCCESS) ∧
    (∀ a : CIDR, cidr_get_proto a = CIDR_IPV6 → cidr_get_pflen a < 127 →
      (is_ipv6_host a = RESULT_SUCCESS ↔ ¬ is_ipv6_net a = RESULT_SUCCESS)) ∧
    (∀ a : CIDR, cidr_get_proto a = CIDR_IPV6 → a.addr = (cidr_addr_network a).addr →
      127 ≤ cidr_get_pflen a →
      is_ipv6_host a = RESULT_SUCCESS ∧ is_ipv6_net a = RESULT_SUCCESS) := by
  refine ⟨fun a hp hl => ?_, fun a hp he hl => ?_, fun a hp hl => ?_, fun a hp he hl => ?_⟩
  · unfold is_ipv4_host is_ipv4_net
    rw [if_result_success, if_result_success, cidr_equals_network_lt, cidr_equals_network_eq]
    constructor
    · rintro ⟨-, hne | hge⟩
      · exact fun hc => hne hc.2
      · omega
    · intro hne
      exact ⟨hp, Or.inl fun hc => hne ⟨hp, hc⟩⟩
  · unfold is_ipv4_host is_ipv4_net
    rw [if_result_success, if_result_success, cidr_equals_network_lt, cidr_equals_network_eq]
    exact ⟨⟨hp, Or.inr hl⟩, hp, he⟩
  · unfold is_ipv6_host is_ipv6_net
    rw [if_result_success, if_result_success, cidr_equals_network_lt, cidr_equals_network_eq]
    constructor
    · rintro ⟨-, hne | hge⟩
      · exact fun hc => hne hc.2
      · omega
    · intro hne
      exact ⟨hp, Or.inl fun hc => hne ⟨hp, hc⟩⟩
  · unfold is_ipv6_host is_ipv6_net
    rw [if_result_success, if_result_success, cidr_equals_network_lt, cidr_equals_network_eq]
    exact ⟨⟨hp, Or.inr hl⟩, hp, he⟩

/-- C9 witness: the theorem applied at 192.0.2.5/24 and 192.0.2.0/31 (IPv4)
    and at 2001:db8::1/64 and 2001:db8::/127 (IPv6). -/
theorem c9_witness :
    (is_ipv4_host (cidr_from_str "192.0.2.5/24".data) = RESULT_SUCCESS ↔
      ¬ is_ipv4_net (cidr_from_str "192.0.2.5/24".data) = RESULT_SUCCESS) ∧
    (is_ipv4_host (cidr_from_str "192.0.2.0/31".data) = RESULT_SUCCESS ∧
      is_ipv4_net (cidr_from_str "192.0.2.0/31".data) = RESULT_SUCCESS) ∧
    (is_ipv6_host (cidr_from_str "2001:db8::1/64".data) = RESULT_SUCCESS ↔
      ¬ is_ipv6_net (cidr_from_str "2001:db8::1/64".data) = RESULT_SUCCESS) ∧
    (is_ipv6_host (cidr_from_str "2001:db8::/127".data) = RESULT_SUCCESS ∧
      is_ipv6_net (cidr_from_str "2001:db8::/127".data) = RESULT_SUCCESS) :=
  ⟨c9_host_net_overlap.1 _ (by decide) (by decide),
   c9_host_net_overlap.2.1 _ (by decide) (by decide) (by decide),
   c9_host_net_overlap.2.2.1 _ (by decide) (by decide),
   c9_host_net_overlap.2.2.2 _ (by decide) (by decide) (by decide)⟩

/-- C10: a parsed value with the invalid/none protocol tag (one rejected by
    is_valid_address) is rejected by every semantic classifier, since each of
    them conjoins an explicit protocol-family check. -/
theorem c10_invalid_proto_rejected_everywhere :
    ∀ (a : CIDR) (s : List Char) (lb : Bool),
      is_valid_address a = RESULT_FAILURE →
      is_ipv4 a = RESULT_FAILURE ∧ is_ipv6 a = RESULT_FAILURE ∧
      is_ipv4_host a = RESULT_FAILURE ∧ is_ipv4_net a = RESULT_FAILURE ∧
      is_ipv4_broadcast a = RESULT_FAILURE ∧ is_ipv4_multicast a = RESULT_FAILURE ∧
      is_ipv4_loopback a = RESULT_FAILURE ∧ is_ipv4_link_local a = RESULT_FAILURE ∧
      is_ipv4_rfc1918 a = RESULT_FAILURE ∧ is_ipv6_host a = RESULT_FAILURE ∧
      is_ipv6_net a = RESULT_FAILURE ∧ is_ipv6_multicast a = RESULT_FAILURE ∧
      is_ipv6_link_local a = RESULT_FAILURE ∧ is_any_host a = RESULT_FAILURE ∧
      is_any_net a = RESULT_FAILURE ∧
      is_valid_intf_address a s lb = RESULT_FAILURE := by
  intro a s lb hvalid
  have hproto : cidr_get_proto a = INVALID_PROTO := by
    unfold is_valid_address at hvalid
    rw [if_result_failure] at hvalid
    simpa using hvalid
  have h4 : ¬ cidr_get_proto a = CIDR_IPV4 := by
    rw [hproto]
    simp [INVALID_PROTO, CIDR_IPV4]
  have h6 : ¬ cidr_get_proto a = CIDR_IPV6 := by
    rw [hproto]
    simp [INVALID_PROTO, CIDR_IPV6]
  have hhost : is_any_host a = RESULT_FAILURE := by
    unfold is_any_host is_ipv4_host is_ipv6_host
    rw [if_result_failure, if_result_success, if_result_success]
    rintro (⟨hc, -⟩ | ⟨hc, -⟩)
    · exact h4 hc
    · exact h6 hc
  refine ⟨?_, ?_, ?_, ?_, ?_, ?_, ?_, ?_, ?_, ?_, ?_, ?_, ?_, hhost, ?_, ?_⟩
  · unfold is_ipv4
    rw [if_result_failure]
    exact h4
  · unfold is_ipv6
    rw [if_result_failure]
    exact h6
  · unfold is_ipv4_host
    rw [if_result_failure]
    rintro ⟨hc, -⟩
    exact h4 hc
  · unfold is_ipv4_net
    rw [if_result_failure]
    rintro ⟨hc, -⟩
    exact h4 hc
  · unfold is_ipv4_broadcast
    rw [if_result_failure]
    rintro ⟨hc, -⟩
    exact h4 hc
  · unfold is_ipv4_multicast
    rw [if_result_failure]
    rintro ⟨hc, -⟩
    exact h4 hc
  · unfold is_ipv4_loopback
    rw [if_result_failure]
    rintro ⟨hc, -⟩
    exact h4 hc
  · unfold is_ipv4_link_local
    rw [if_result_failure]
    rintro ⟨hc, -⟩
    exact h4 hc
  · unfold is_ipv4_rfc1918
    rw [if_result_failure]
    rintro ⟨hc, -⟩
    exact h4 hc
  · unfold is_ipv6_host
    rw [if_result_failure]
    rintro ⟨hc, -⟩
    exact h6 hc
  · unfold is_ipv6_net
    rw [if_result_failure]
    rintro ⟨hc, -⟩
    exact h6 hc
  · unfold is_ipv6_multicast
    rw [if_result_failure]
    rintro ⟨hc, -⟩
    exact h6 hc
  · unfold is_ipv6_link_local
    rw [if_result_failure]
    rintro ⟨hc, -⟩
    exact h6 hc
  · unfold is_any_net is_ipv4_net is_ipv6_net
    rw [if_result_failure, if_result_success, if_result_success]
    rintro (⟨hc, -⟩ | ⟨hc, -⟩)
    · exact h4 hc
    · exact h6 hc
  · unfold is_valid_intf_address
    rw [if_result_failure]
    rintro ⟨-, -, -, -, -, -, -, -, hc, -⟩
    rw [hhost] at hc
    exact absurd hc (by decide)

/-- C10 witness: the theorem applied at the unparseable literal
    "notanaddress". -/
theorem c10_witness :
    is_valid_address (cidr_from_str "notanaddress".data) = RESULT_FAILURE ∧
    (is_ipv4 (cidr_from_str "notanaddress".data) = RESULT_FAILURE ∧
     is_ipv6 (cidr_from_str "notanaddress".data) = RESULT_FAILURE ∧
     is_ipv4_host (cidr_from_str "notanaddress".data) = RESULT_FAILURE ∧
     is_ipv4_net (cidr_from_str "notanaddress".data) = RESULT_FAILURE ∧
     is_ipv4_broadcast (cidr_from_str "notanaddress".data) = RESULT_FAILURE ∧
     is_ipv4_multicast (cidr_from_str "notanaddress".data) = RESULT_FAILURE ∧
     is_ipv4_loopback (cidr_from_str "notanaddress".data) = RESULT_FAILURE ∧
     is_ipv4_link_local (cidr_from_str "notanaddress".data) = RESULT_FAILURE ∧
     is_ipv4_rfc1918 (cidr_from_str "notanaddress".data) = RESULT_FAILURE ∧
     is_ipv6_host (cidr_from_str "notanaddress".data) = RESULT_FAILURE ∧
     is_ipv6_net (cidr_from_str "notanaddress".data) = RESULT_FAILURE ∧
     is_ipv6_multicast (cidr_from_str "notanaddress".data) = RESULT_FAILURE ∧
     is_ipv6_link_local (cidr_from_str "notanaddress".data) = RESULT_FAILURE ∧
     is_any_host (cidr_from_str "notanaddress".data) = RESULT_FAILURE ∧
     is_any_net (cidr_from_str "notanaddress".data) = RESULT_FAILURE ∧
     is_valid_intf_address (cidr_from_str "notanaddress".data) "notanaddress".data
       false = RESULT_FAILURE) :=
  ⟨by decide,
   c10_invalid_proto_rejected_everywhere (cidr_from_str "notanaddress".data)
     "notanaddress".data false (by decide)⟩

/-- C1 counterexample: for the parsed address of the literal "192.0.2.1" —
    given in single (non-CIDR) format — every condition of the claimed
    characterization holds, including that the literal is lexically a
    CIDR-or-single address format (it is a single address), yet
    is_valid_intf_address fails for either value of the loopback flag: the
    code demands CIDR format (is_any_cidr), not CIDR-or-single. -/
theorem c1_claim_counterexample :
    is_ipv4_broadcast (cidr_from_str "192.0.2.1".data) = RESULT_FAILURE ∧
    is_ipv4_multicast (cidr_from_str "192.0.2.1".data) = RESULT_FAILURE ∧
    is_ipv6_multicast (cidr_from_str "192.0.2.1".data) = RESULT_FAILURE ∧
    is_ipv4_loopback (cidr_from_str "192.0.2.1".data) = RESULT_FAILURE ∧
    cidr_equals (cidr_from_str "192.0.2.1".data) (cidr_from_str IPV6_LOOPBACK) ≠ 0 ∧
    cidr_equals (cidr_from_str "192.0.2.1".data) (cidr_from_str IPV4_UNSPECIFIED) ≠ 0 ∧
    cidr_contains (cidr_from_str IPV4_THIS) (cidr_from_str "192.0.2.1".data) ≠ 0 ∧
    cidr_equals (cidr_from_str "192.0.2.1".data)
      (cidr_from_str IPV4_LIMITED_BROADCAST) ≠ 0 ∧
    is_any_host (cidr_from_str "192.0.2.1".data) = RESULT_SUCCESS ∧
    is_any_single "192.0.2.1".data = RESULT_SUCCESS ∧
    is_valid_intf_address (cidr_from_str "192.0.2.1".data) "192.0.2.1".data
      false = RESULT_FAILURE ∧
    is_valid_intf_address (cidr_from_str "192.0.2.1".data) "192.0.2.1".data
      true = RESULT_FAILURE := by
  decide

/-- C1 (amended): is_valid_intf_address succeeds exactly when the address is
    not an IPv4 broadcast, not IPv4 or IPv6 multicast, not IPv4 loopback
    unless the flag allows it, not the IPv6 loopback address, not the IPv4
    unspecified address, not inside the IPv4 this-network block, not the IPv4
    limited-broadcast address, is a host address, and the original literal is
    lexically a CIDR address format (is_any_cidr — amended from the claimed
    CIDR-or-single); in particular the broadcast, multicast, unspecified and
    IPv6-loopback rejections hold regardless of the loopback flag, and IPv4
    loopback is rejected only when the flag is unset. -/
theorem c1_intf_address_characterization :
    ∀ (address : CIDR) (address_str : List Char) (allow_loopback : Bool),
      (is_valid_intf_address address address_str allow_loopback = RESULT_SUCCESS ↔
        (is_ipv4_broadcast address = RESULT_FAILURE ∧
         is_ipv4_multicast address = RESULT_FAILURE ∧
         is_ipv6_multicast address = RESULT_FAILURE ∧
         (is_ipv4_loopback address = RESULT_FAILURE ∨ allow_loopback = LOOPBACK_ALLOWED) ∧
         cidr_equals address (cidr_from_str IPV6_LOOPBACK) ≠ 0 ∧
         cidr_equals address (cidr_from_str IPV4_UNSPECIFIED) ≠ 0 ∧
         cidr_contains (cidr_from_str IPV4_THIS) address ≠ 0 ∧
         cidr_equals address (cidr_from_str IPV4_LIMITED_BROADCAST) ≠ 0 ∧
         is_any_host address = RESULT_SUCCESS ∧
         is_any_cidr address_str = RESULT_SUCCESS)) ∧
      (is_ipv4_broadcast address = RESULT_SUCCESS →
        is_valid_intf_address address address_str allow_loopback = RESULT_FAILURE) ∧
      (is_ipv4_multicast address = RESULT_SUCCESS →
        is_valid_intf_address address address_str allow_loopback = RESULT_FAILURE) ∧
      (is_ipv6_multicast address = RESULT_SUCCESS →
        is_valid_intf_address address address_str allow_loopback = RESULT_FAILURE) ∧
      (cidr_equals address (cidr_from_str IPV6_LOOPBACK) = 0 →
        is_valid_intf_address address address_str allow_loopback = RESULT_FAILURE) ∧
      (cidr_equals address (cidr_from_str IPV4_UNSPECIFIED) = 0 →
        is_valid_intf_address address address_str allow_loopback = RESULT_FAILURE) ∧
      (cidr_equals address (cidr_from_str IPV4_LIMITED_BROADCAST) = 0 →
        is_valid_intf_address address address_str allow_loopback = RESULT_FAILURE) ∧
      (is_ipv4_loopback address = RESULT_SUCCESS → allow_loopback = false →
        is_valid_intf_address address address_str allow_loopback = RESULT_FAILURE) := by
  intro address address_str allow_loopback
  refine ⟨?_, ?_, ?_, ?_, ?_, ?_, ?_, ?_⟩
  · unfold is_valid_intf_address
    exact if_result_success _
  · intro h
    unfold is_valid_intf_address
    rw [if_result_failure]
    rintro ⟨h1, -⟩
    rw [h] at h1
    exact absurd h1 (by decide)
  · intro h
    unfold is_valid_intf_address
    rw [if_result_failure]
    rintro ⟨-, h1, -⟩
    rw [h] at h1
    exact absurd h1 (by decide)
  · intro h
    unfold is_valid_intf_address
    rw [if_result_failure]
    rintro ⟨-, -, h1, -⟩
    rw [h] at h1
    exact absurd h1 (by decide)
  · intro h
    unfold is_valid_intf_address
    rw [if_result_failure]
    rintro ⟨-, -, -, -, h1, -⟩
    exact h1 h
  · intro h
    unfold is_valid_intf_address
    rw [if_result_failure]
    rintro ⟨-, -, -, -, -, h1, -⟩
    exact h1 h
  · intro h
    unfold is_valid_intf_address
    rw [if_result_failure]
    rintro ⟨-, -, -, -, -, -, -, h1, -⟩
    exact h1 h
  · intro h hlb
    unfold is_valid_intf_address
    rw [if_result_failure]
    rintro ⟨-, -, -, h1 | h1, -⟩
    · rw [h] at h1
      exact absurd h1 (by decide)
    · rw [hlb] at h1
      exact absurd h1 (by decide)

/-- C1 witness: the theorem applied at a broadcast address, an IPv4 multicast
    address, an IPv6 multicast address, the IPv6 loopback, the IPv4
    unspecified address, the limited-broadcast address, and the IPv4 loopback
    with the flag unset and set. -/
theorem c1_witness :
    is_valid_intf_address (cidr_from_str "192.0.2.255/24".data) "192.0.2.255/24".data
      true = RESULT_FAILURE ∧
    is_valid_intf_address (cidr_from_str "224.0.0.5/24".data) "224.0.0.5/24".data
      false = RESULT_FAILURE ∧
    is_valid_intf_address (cidr_from_str "ff02::1/64".data) "ff02::1/64".data
      false = RESULT_FAILURE ∧
    is_valid_intf_address (cidr_from_str "::1/128".data) "::1/128".data
      true = RESULT_FAILURE ∧
    is_valid_intf_address (cidr_from_str "0.0.0.0".data) "0.0.0.0".data
      true = RESULT_FAILURE ∧
    is_valid_intf_address (cidr_from_str "255.255.255.255/32".data)
      "255.255.255.255/32".data true = RESULT_FAILURE ∧
    is_valid_intf_address (cidr_from_str "127.0.0.1/8".data) "127.0.0.1/8".data
      false = RESULT_FAILURE ∧
    is_valid_intf_address (cidr_from_str "127.0.0.1/8".data) "127.0.0.1/8".data
      true = RESULT_SUCCESS :=
  ⟨(c1_intf_address_characterization _ _ _).2.1 (by decide),
   (c1_intf_address_characterization _ _ _).2.2.1 (by decide),
   (c1_intf_address_characterization _ _ _).2.2.2.1 (by decide),
   (c1_intf_address_characterization _ _ _).2.2.2.2.1 (by decide),
   (c1_intf_address_characterization _ _ _).2.2.2.2.2.1 (by decide),
   (c1_intf_address_characterization _ _ _).2.2.2.2.2.2.1 (by decide),
   (c1_intf_address_characterization _ _ _).2.2.2.2.2.2.2 (by decide) (by decide),
   (c1_intf_address_characterization _ _ _).1.mpr (by decide)⟩

/-! The range validators and their helpers. -/

/-- Loop of split_range from the source: characters are written into the
    current buffer; every hyphen finalizes the left buffer (on its first
    occurrence) and resets the right buffer.  Hence left is everything before
    the first hyphen and right everything after the last one.  When the input
    has no hyphen the C version leaves the right buffer unwritten; it is
    modelled as empty. -/
def splitRangeGo : List Char → List Char → Option (List Char) → List Char × List Char
  | [], cur, none => (cur.reverse, [])
  | [], cur, some left => (left, cur.reverse)
  | c :: rest, cur, st =>
    if c = '-' then
      match st with
      | none => splitRangeGo rest [] (some cur.reverse)
      | some left => splitRangeGo rest [] (some left)
    else splitRangeGo rest (c :: cur) st

/-- split_range from the source. -/
def split_range (range_str : List Char) : List Char × List Char :=
  splitRangeGo range_str [] none

/-- Big-endian byte decomposition of an address value: n bytes, most
    significant byte first. -/
def toBytesBE : Nat → Nat → List Nat
  | 0, _ => []
  | n + 1, v => v / 2 ^ (8 * n) % 256 :: toBytesBE n v

/-- Modelled from the spec (sections 4.4 and 6): conversion of an IPv4 parsed
    value to the 32-bit host-byte-order integer used for the step-4 ordering
    comparison. -/
def cidr_to_inaddr (address : CIDR) : Nat := address.addr

/-- Modelled from the spec (section 6): conversion of an IPv6 parsed value to
    its 16-byte address array, most significant byte first. -/
def cidr_to_in6addr (address : CIDR) : List Nat := toBytesBE 16 address.addr

/-- compare_ipv6 from the source: byte-by-byte comparison of two 16-byte
    arrays, most significant byte first. -/
def compare_ipv6 : List Nat → List Nat → Int
  | l :: ls, r :: rs =>
    if l < r then -1
    else if l > r then 1
    else compare_ipv6 ls rs
  | _, _ => 0

/-- The diagnostic messages of the range validators, abstracted as tags for
    the four stderr texts of the source. -/
inductive RangeMsg where
  | malformedRange : RangeMsg
  | badLeftAddr : RangeMsg
  | badRightAddr : RangeMsg
  | firstGreater : RangeMsg
deriving DecidableEq

/-- A diagnostic is printed only in verbose mode. -/
def emit (verbose : Bool) (m : RangeMsg) : List RangeMsg :=
  if verbose then [m] else []

/-- The shared shape of the two range format gates: the anchored pattern
    charset+ '-' charset+, whose character classes exclude the hyphen. -/
def rangeGate (p : Char → Bool) (range_str : List Char) : Bool :=
  match ((matchPlus p range_str).bind (expectChar '-')).bind (matchPlus p) with
  | some r => atDollar r
  | none => false

/-- The format gate of is_ipv4_range: the anchored pattern
    ^([0-9\.]+\-[0-9\.]+)$. -/
def rangeGateV4 : List Char → Bool := rangeGate isV4RangeCh

/-- The format gate of is_ipv6_range: the anchored pattern
    ^([0-9a-fA-F:]+\-[0-9a-fA-F:]+)$. -/
def rangeGateV6 : List Char → Bool := rangeGate isV6Ch

/-- Decimal digit string of a number (the %u of the sprintf that builds the
    left/prefix string in step 5). -/
def natDecimal (n : Nat) : List Char := Nat.toDigits 10 n

/-- is_ipv4_range from the source.  The Bool is the C result; the list
    collects the diagnostics printed to stderr, as tags.  The C locals left,
    right, left_addr, right_addr are inlined. -/
def is_ipv4_range (range_str : List Char) (prefix_length : Nat) (verbose : Bool) :
    Bool × List RangeMsg :=
  if rangeGateV4 range_str = false then
    (RESULT_FAILURE, emit verbose .malformedRange)
  else if ¬ (is_ipv4_single (split_range range_str).1 = RESULT_SUCCESS ∧
      is_valid_address (cidr_from_str (split_range range_str).1) = RESULT_SUCCESS) then
    (RESULT_FAILURE, emit verbose .badLeftAddr)
  else if ¬ (is_ipv4_single (split_range range_str).2 = RESULT_SUCCESS ∧
      is_valid_address (cidr_from_str (split_range range_str).2) = RESULT_SUCCESS) then
    (RESULT_FAILURE, emit verbose .badRightAddr)
  else if cidr_to_inaddr (cidr_from_str (split_range range_str).1) ≤
      cidr_to_inaddr (cidr_from_str (split_range range_str).2) then
    if 0 < prefix_length then
      if cidr_contains
          (cidr_addr_network (cidr_from_str
            ((split_range range_str).1 ++ '/' :: natDecimal prefix_length)))
          (cidr_from_str (split_range range_str).2) = 0 then
        (RESULT_SUCCESS, [])
      else
        (RESULT_FAILURE, [])
    else
      (RESULT_SUCCESS, [])
  else
    (RESULT_FAILURE, emit verbose .firstGreater)

/-- is_ipv6_range from the source, like is_ipv4_range; the endpoint checks
    additionally require the absence of a duplicated "::". -/
def is_ipv6_range (range_str : List Char) (prefix_length : Nat) (verbose : Bool) :
    Bool × List RangeMsg :=
  if rangeGateV6 range_str = false then
    (RESULT_FAILURE, emit verbose .malformedRange)
  else if ¬ (is_ipv6_single (split_range range_str).1 = RESULT_SUCCESS ∧
      is_valid_address (cidr_from_str (split_range range_str).1) = RESULT_SUCCESS ∧
      duplicate_double_colons (split_range range_str).1 = RESULT_FAILURE) then
    (RESULT_FAILURE, emit verbose .badLeftAddr)
  else if ¬ (is_ipv6_single (split_range range_str).2 = RESULT_SUCCESS ∧
      is_valid_address (cidr_from_str (split_range range_str).2) = RESULT_SUCCESS ∧
      duplicate_double_colons (split_range range_str).2 = RESULT_FAILURE) then
    (RESULT_FAILURE, emit verbose .badRightAddr)
  else if compare_ipv6 (cidr_to_in6addr (cidr_from_str (split_range range_str).1))
      (cidr_to_in6addr (cidr_from_str (split_range range_str).2)) ≤ 0 then
    if 0 < prefix_length then
      if cidr_contains
          (cidr_addr_network (cidr_from_str
            ((split_range range_str).1 ++ '/' :: natDecimal prefix_length)))
          (cidr_from_str (split_range range_str).2) = 0 then
        (RESULT_SUCCESS, [])
      else
        (RESULT_FAILURE, [])
    else
      (RESULT_SUCCESS, [])
  else
    (RESULT_FAILURE, emit verbose .firstGreater)

/-! Value bounds for the parser model: every parsed address value fits in the
    width of its family, hence in 128 bits. -/

lemma lookup_val_lt {l : List (Char × Nat)} (hall : ∀ p ∈ l, p.2 < 16) :
    ∀ {k : Char} {v : Nat}, l.lookup k = some v → v < 16 := by
  induction l with
  | nil =>
    intro k v h
    simp [List.lookup] at h
  | cons p t ih =>
    intro k v h
    rcases p with ⟨a, b⟩
    unfold List.lookup at h
    split at h
    · injection h with h'
      rw [← h']
      exact hall (a, b) (by simp)
    · exact ih (fun q hq => hall q (by simp [hq])) h

lemma hexVal_lt (c : Char) : hexVal c < 16 := by
  unfold hexVal
  cases h : hexTable.lookup c with
  | none => simp
  | some v =>
    simp only [Option.getD_some]
    exact lookup_val_lt (by decide) h

lemma foldl_hexStep_lt (l : List Char) (a : Nat) :
    l.foldl hexStep a < (a + 1) * 16 ^ l.length := by
  induction l generalizing a with
  | nil => simp
  | cons c t ih =>
    have h2 : 16 * a + hexVal c + 1 ≤ (a + 1) * 16 := by
      have := hexVal_lt c
      omega
    calc (c :: t).foldl hexStep a = t.foldl hexStep (16 * a + hexVal c) := by simp [hexStep]
      _ < (16 * a + hexVal c + 1) * 16 ^ t.length := ih _
      _ ≤ ((a + 1) * 16) * 16 ^ t.length := Nat.mul_le_mul_right _ h2
      _ = (a + 1) * 16 ^ (c :: t).length := by rw [List.length_cons]; ring

lemma parseHexGroup_lt {g : List Char} {v : Nat} (h : parseHexGroup g = some v) :
    v < 65536 := by
  unfold parseHexGroup at h
  split at h
  · rename_i hcond
    have hv : hexGroupVal g = v := by injection h
    have hb := foldl_hexStep_lt g 0
    have hlen : (16 : Nat) ^ g.length ≤ 16 ^ 4 :=
      Nat.pow_le_pow_right (by norm_num) hcond.2.1
    rw [← hv]
    calc hexGroupVal g < (0 + 1) * 16 ^ g.length := hb
      _ ≤ 16 ^ 4 := by simpa using hlen
      _ = 65536 := by norm_num
  · exact absurd h (by simp)

lemma parseGroups_lt : ∀ {gs : List (List Char)} {vs : List Nat},
    parseGroups gs = some vs → ∀ v ∈ vs, v < 65536 := by
  intro gs
  induction gs with
  | nil =>
    intro vs h v hv
    unfold parseGroups at h
    injection h with h'
    rw [← h'] at hv
    simp at hv
  | cons g t ih =>
    intro vs h v hv
    unfold parseGroups at h
    cases hg : parseHexGroup g with
    | none => rw [hg] at h; simp at h
    | some w =>
      cases ht : parseGroups t with
      | none => rw [hg, ht] at h; simp at h
      | some ws =>
        rw [hg, ht] at h
        injection h with h'
        rw [← h'] at hv
        rcases List.mem_cons.mp hv with rfl | hmem
        · exact parseHexGroup_lt hg
        · exact ih ht v hmem

lemma foldl_groupStep_lt : ∀ (gs : List Nat) (a : Nat), (∀ g ∈ gs, g < 65536) →
    gs.foldl groupStep a < (a + 1) * 65536 ^ gs.length := by
  intro gs
  induction gs with
  | nil => intro a _; simp
  | cons g t ih =>
    intro a h
    have hg : g < 65536 := h g (by simp)
    have h2 : a * 65536 + g + 1 ≤ (a + 1) * 65536 := by omega
    calc (g :: t).foldl groupStep a = t.foldl groupStep (a * 65536 + g) := by simp [groupStep]
      _ < (a * 65536 + g + 1) * 65536 ^ t.length := ih _ (fun x hx => h x (by simp [hx]))
      _ ≤ ((a + 1) * 65536) * 65536 ^ t.length := Nat.mul_le_mul_right _ h2
      _ = (a + 1) * 65536 ^ (g :: t).length := by rw [List.length_cons]; ring

lemma groupsVal_lt {gs : List Nat} (h : ∀ g ∈ gs, g < 65536) (hlen : gs.length = 8) :
    groupsVal gs < 2 ^ 128 := by
  have hb := foldl_groupStep_lt gs 0 h
  rw [hlen] at hb
  calc groupsVal gs < (0 + 1) * 65536 ^ 8 := hb
    _ = 2 ^ 128 := by norm_num

lemma sideGroups_lt {pre : List Char} {gs : List Nat}
    (h : (if pre = [] then some [] else parseGroups (splitOnChar ':' pre)) = some gs) :
    ∀ v ∈ gs, v < 65536 := by
  split at h
  · injection h with h'
    rw [← h']
    simp
  · exact parseGroups_lt h

lemma parseIPv6Addr_lt {l : List Char} {v : Nat} (h : parseIPv6Addr l = some v) :
    v < 2 ^ 128 := by
  unfold parseIPv6Addr at h
  split at h
  · split at h
    · rename_i gs hpg
      split at h
      · rename_i hlen
        injection h with h'
        rw [← h']
        exact groupsVal_lt (parseGroups_lt hpg) hlen
      · exact absurd h (by simp)
    · exact absurd h (by simp)
  · split at h
    · split at h
      · rename_i pre post hbd
        split at h
        · rename_i gsL gsR hL hR
          split at h
          · rename_i hlen
            injection h with h'
            rw [← h']
            refine groupsVal_lt ?_ ?_
            · intro g hg
              rcases List.mem_append.mp hg with hg1 | hg2
              · rcases List.mem_append.mp hg1 with hg3 | hg4
                · exact sideGroups_lt hL g hg3
                · have := List.eq_of_mem_replicate hg4
                  omega
              · exact sideGroups_lt hR g hg2
            · simp only [List.length_append, List.length_replicate]
              omega
          · exact absurd h (by simp)
        · exact absurd h (by simp)
      · exact absurd h (by simp)
    · exact absurd h (by simp)

lemma parseOctets_le : ∀ {gs : List (List Char)} {vs : List Nat},
    parseOctets gs = some vs → ∀ v ∈ vs, v ≤ 255 := by
  intro gs
  induction gs with
  | nil =>
    intro vs h v hv
    unfold parseOctets at h
    injection h with h'
    rw [← h'] at hv
    simp at hv
  | cons g t ih =>
    intro vs h v hv
    unfold parseOctets at h
    split at h
    · rename_i w ws hg ht
      split at h
      · rename_i hle
        injection h with h'
        rw [← h'] at hv
        rcases List.mem_cons.mp hv with rfl | hmem
        · exact hle
        · exact ih ht v hmem
      · exact absurd h (by simp)
    · exact absurd h (by simp)

lemma parseIPv4Addr_lt {l : List Char} {v : Nat} (h : parseIPv4Addr l = some v) :
    v < 2 ^ 32 := by
  unfold parseIPv4Addr at h
  split at h
  · rename_i a b c d hpo
    injection h with h'
    have ha := parseOctets_le hpo a (by simp)
    have hb := parseOctets_le hpo b (by simp)
    have hc := parseOctets_le hpo c (by simp)
    have hd := parseOctets_le hpo d (by simp)
    omega
  · exact absurd h (by simp)

lemma cidr_from_str_addr_lt (s : List Char) : (cidr_from_str s).addr < 2 ^ 128 := by
  have hinv : invalidCIDR.addr < 2 ^ 128 := by norm_num [invalidCIDR]
  unfold cidr_from_str
  split
  · split
    · rename_i v h4
      exact lt_of_lt_of_le (parseIPv4Addr_lt h4) (by norm_num)
    · split
      · rename_i v h6
        exact parseIPv6Addr_lt h6
      · exact hinv
  · split
    · exact hinv
    · split
      · rename_i v h4
        split
        · exact lt_of_lt_of_le (parseIPv4Addr_lt h4) (by norm_num)
        · exact hinv
      · split
        · rename_i v h6
          split
          · exact parseIPv6Addr_lt h6
          · exact hinv
        · exact hinv
  · exact hinv

/-! The byte-wise comparison agrees with the numeric order. -/

lemma toBytesBE_mod (n : Nat) : ∀ v : Nat, toBytesBE n (v % 2 ^ (8 * n)) = toBytesBE n v := by
  induction n with
  | zero => intro v; rfl
  | succ k ih =>
    intro v
    unfold toBytesBE
    congr 1
    · have h1 : (2 : Nat) ^ (8 * (k + 1)) = 2 ^ (8 * k) * 2 ^ 8 := by
        rw [← pow_add]
        ring_nf
      have h2 : (2 : Nat) ^ 8 = 256 := by norm_num
      rw [h1, Nat.mod_mul_right_div_self, h2, Nat.mod_mod_of_dvd _ dvd_rfl]
    · have h2 : v % 2 ^ (8 * (k + 1)) % 2 ^ (8 * k) = v % 2 ^ (8 * k) :=
        Nat.mod_mod_of_dvd v (pow_dvd_pow 2 (by omega))
      calc toBytesBE k (v % 2 ^ (8 * (k + 1)))
          = toBytesBE k (v % 2 ^ (8 * (k + 1)) % 2 ^ (8 * k)) := (ih _).symm
        _ = toBytesBE k (v % 2 ^ (8 * k)) := by rw [h2]
        _ = toBytesBE k v := ih v

lemma compare_toBytesBE : ∀ (n a b : Nat), a < 2 ^ (8 * n) → b < 2 ^ (8 * n) →
    compare_ipv6 (toBytesBE n a) (toBytesBE n b) =
      if a < b then -1 else if b < a then 1 else 0 := by
  intro n
  induction n with
  | zero =>
    intro a b ha hb
    simp only [Nat.mul_zero, pow_zero, Nat.lt_one_iff] at ha hb
    subst ha
    subst hb
    simp [toBytesBE, compare_ipv6]
  | succ k ih =>
    intro a b ha hb
    have hc : (0 : Nat) < 2 ^ (8 * k) := by positivity
    have hsplit : (2 : Nat) ^ (8 * (k + 1)) = 2 ^ (8 * k) * 2 ^ 8 := by
      rw [← pow_add]
      ring_nf
    have hA : a / 2 ^ (8 * k) < 2 ^ 8 := by
      rw [Nat.div_lt_iff_lt_mul hc]
      rw [hsplit] at ha
      calc a < 2 ^ (8 * k) * 2 ^ 8 := ha
        _ = 2 ^ 8 * 2 ^ (8 * k) := by ring
    have hB : b / 2 ^ (8 * k) < 2 ^ 8 := by
      rw [Nat.div_lt_iff_lt_mul hc]
      rw [hsplit] at hb
      calc b < 2 ^ (8 * k) * 2 ^ 8 := hb
        _ = 2 ^ 8 * 2 ^ (8 * k) := by ring
    have hA' : a / 2 ^ (8 * k) % 256 = a / 2 ^ (8 * k) := Nat.mod_eq_of_lt (by simpa using hA)
    have hB' : b / 2 ^ (8 * k) % 256 = b / 2 ^ (8 * k) := Nat.mod_eq_of_lt (by simpa using hB)
    unfold toBytesBE
    rw [hA', hB']
    simp only [compare_ipv6]
    by_cases hAB : a / 2 ^ (8 * k) < b / 2 ^ (8 * k)
    · have hab : a < b := by
        calc a = a / 2 ^ (8 * k) * 2 ^ (8 * k) + a % 2 ^ (8 * k) :=
              (Nat.div_add_mod' a _).symm
          _ < a / 2 ^ (8 * k) * 2 ^ (8 * k) + 2 ^ (8 * k) := by
              have := Nat.mod_lt a hc
              omega
          _ = (a / 2 ^ (8 * k) + 1) * 2 ^ (8 * k) := by ring
          _ ≤ b / 2 ^ (8 * k) * 2 ^ (8 * k) := Nat.mul_le_mul_right _ (by omega)
          _ ≤ b / 2 ^ (8 * k) * 2 ^ (8 * k) + b % 2 ^ (8 * k) := Nat.le_add_right _ _
          _ = b := Nat.div_add_mod' b _
      rw [if_pos hAB, if_pos hab]
    · rw [if_neg hAB]
      by_cases hBA : b / 2 ^ (8 * k) < a / 2 ^ (8 * k)
      · have hba : b < a := by
          calc b = b / 2 ^ (8 * k) * 2 ^ (8 * k) + b % 2 ^ (8 * k) :=
                (Nat.div_add_mod' b _).symm
            _ < b / 2 ^ (8 * k) * 2 ^ (8 * k) + 2 ^ (8 * k) := by
                have := Nat.mod_lt b hc
                omega
            _ = (b / 2 ^ (8 * k) + 1) * 2 ^ (8 * k) := by ring
            _ ≤ a / 2 ^ (8 * k) * 2 ^ (8 * k) := Nat.mul_le_mul_right _ (by omega)
            _ ≤ a / 2 ^ (8 * k) * 2 ^ (8 * k) + a % 2 ^ (8 * k) := Nat.le_add_right _ _
            _ = a := Nat.div_add_mod' a _
        rw [if_pos hBA, if_neg (by omega), if_pos hba]
      · have hABeq : a / 2 ^ (8 * k) = b / 2 ^ (8 * k) := by omega
        rw [if_neg hBA]
        rw [← toBytesBE_mod k a, ← toBytesBE_mod k b]
        rw [ih _ _ (Nat.mod_lt a hc) (Nat.mod_lt b hc)]
        have e1 := Nat.div_add_mod' a (2 ^ (8 * k))
        have e2 := Nat.div_add_mod' b (2 ^ (8 * k))
        rw [hABeq] at e1
        generalize hX : b / 2 ^ (8 * k) * 2 ^ (8 * k) = X at e1 e2
        have hiff1 : (a % 2 ^ (8 * k) < b % 2 ^ (8 * k)) ↔ (a < b) := by omega
        have hiff2 : (b % 2 ^ (8 * k) < a % 2 ^ (8 * k)) ↔ (b < a) := by omega
        simp only [hiff1, hiff2]

lemma compare_in6_le_iff {a b : Nat} (ha : a < 2 ^ 128) (hb : b < 2 ^ 128) :
    (compare_ipv6 (toBytesBE 16 a) (toBytesBE 16 b) ≤ 0 ↔ a ≤ b) ∧
    (compare_ipv6 (toBytesBE 16 a) (toBytesBE 16 b) = 0 ↔ a = b) := by
  have h128 : (2 : Nat) ^ (8 * 16) = 2 ^ 128 := by norm_num
  have hcmp := compare_toBytesBE 16 a b (by rw [h128]; exact ha) (by rw [h128]; exact hb)
  rw [hcmp]
  constructor
  · by_cases h1 : a < b
    · rw [if_pos h1]
      exact ⟨fun _ => by omega, fun _ => by norm_num⟩
    · rw [if_neg h1]
      by_cases h2 : b < a
      · rw [if_pos h2]
        exact ⟨fun hle => by norm_num at hle, fun hab => by omega⟩
      · rw [if_neg h2]
        exact ⟨fun _ => by omega, fun _ => by norm_num⟩
  · by_cases h1 : a < b
    · rw [if_pos h1]
      exact ⟨fun he => by norm_num at he, fun he => by omega⟩
    · rw [if_neg h1]
      by_cases h2 : b < a
      · rw [if_pos h2]
        exact ⟨fun he => by norm_num at he, fun he => by omega⟩
      · rw [if_neg h2]
        exact ⟨fun _ => by omega, fun _ => rfl⟩

/-! The format gates admit exactly one hyphen. -/

lemma matchPlus_inv {p : Char → Bool} {s r : List Char} (h : matchPlus p s = some r) :
    ∃ c t, s = c :: t ∧ p c = true ∧ r = t.dropWhile p := by
  cases s with
  | nil => simp [matchPlus] at h
  | cons c t =>
    have h' : (if p c then some (t.dropWhile p) else none) = some r := h
    by_cases hc : p c = true
    · rw [if_pos hc] at h'
      injection h' with h''
      exact ⟨c, t, rfl, hc, h''.symm⟩
    · rw [if_neg (by simpa using hc)] at h'
      simp at h'

lemma expectChar_inv {c : Char} {l r : List Char} (h : expectChar c l = some r) :
    l = c :: r := by
  cases l with
  | nil => simp [expectChar] at h
  | cons d t =>
    have h' : (if d = c then some t else none) = some r := h
    by_cases hd : d = c
    · rw [if_pos hd] at h'
      injection h' with h''
      rw [hd, h'']
    · rw [if_neg hd] at h'
      simp at h'

lemma atDollar_inv {r : List Char} (h : atDollar r = true) : r = [] ∨ r = ['\n'] := by
  rcases r with _ | ⟨c, _ | ⟨d, t⟩⟩
  · exact Or.inl rfl
  · right
    have hc : c = '\n' := by simpa [atDollar] using h
    rw [hc]
  · simp [atDollar] at h

lemma count_dropWhile_eq {p : Char → Bool} (hp : p '-' = false) :
    ∀ t : List Char, (t.dropWhile p).count '-' = t.count '-' := by
  intro t
  induction t with
  | nil => simp
  | cons c t ih =>
    by_cases hc : p c = true
    · rw [List.dropWhile_cons, if_pos hc, ih, List.count_cons]
      have hne : c ≠ '-' := by
        rintro rfl
        rw [hp] at hc
        exact absurd hc (by simp)
      simp [hne]
    · rw [List.dropWhile_cons, if_neg (by simpa using hc)]

lemma rangeGate_count {p : Char → Bool} (hp : p '-' = false) {s : List Char}
    (h : rangeGate p s = true) : s.count '-' = 1 := by
  unfold rangeGate at h
  cases h1 : matchPlus p s with
  | none => rw [h1] at h; simp at h
  | some r1 =>
    rw [h1] at h
    simp only [Option.some_bind] at h
    cases h2 : expectChar '-' r1 with
    | none => rw [h2] at h; simp at h
    | some r2 =>
      rw [h2] at h
      simp only [Option.some_bind] at h
      cases h3 : matchPlus p r2 with
      | none => rw [h3] at h; simp at h
      | some r3 =>
        rw [h3] at h
        rcases matchPlus_inv h1 with ⟨c1, t1, rfl, hc1, hr1⟩
        have hd2 : r1 = '-' :: r2 := expectChar_inv h2
        rcases matchPlus_inv h3 with ⟨c2, t2, hr2, hc2, hr3⟩
        have hc1ne : c1 ≠ '-' := by
          rintro rfl
          rw [hp] at hc1
          exact absurd hc1 (by simp)
        have hc2ne : c2 ≠ '-' := by
          rintro rfl
          rw [hp] at hc2
          exact absurd hc2 (by simp)
        have h3z : r3.count '-' = 0 := by
          rcases atDollar_inv h with rfl | rfl <;> simp
        rw [List.count_cons, ← count_dropWhile_eq hp t1, ← hr1, hd2, List.count_cons]
        rw [hr2, List.count_cons, ← count_dropWhile_eq hp t2, ← hr3, h3z]
        simp [hc1ne, hc2ne]

/-- C7: any string with more than one hyphen is rejected by both step-1 format
    gates (whose character classes exclude the hyphen), so the range
    validators fail before ever splitting the string; split_range's
    middle-segment-discarding behavior is unreachable through them. -/
theorem c7_multi_hyphen_rejected_by_gate :
    ∀ (range_str : List Char) (prefix_length : Nat) (verbose : Bool),
      2 ≤ range_str.count '-' →
      rangeGateV4 range_str = false ∧ rangeGateV6 range_str = false ∧
      (is_ipv4_range range_str prefix_length verbose).1 = RESULT_FAILURE ∧
      (is_ipv6_range range_str prefix_length verbose).1 = RESULT_FAILURE := by
  intro s p v h2
  have hg4 : rangeGateV4 s = false := by
    cases hcase : rangeGateV4 s with
    | false => rfl
    | true =>
      have hcount : s.count '-' = 1 := by
        refine rangeGate_count (p := isV4RangeCh) (by decide) ?_
        unfold rangeGateV4 at hcase
        exact hcase
      omega
  have hg6 : rangeGateV6 s = false := by
    cases hcase : rangeGateV6 s with
    | false => rfl
    | true =>
      have hcount : s.count '-' = 1 := by
        refine rangeGate_count (p := isV6Ch) (by decide) ?_
        unfold rangeGateV6 at hcase
        exact hcase
      omega
  refine ⟨hg4, hg6, ?_, ?_⟩
  · unfold is_ipv4_range
    rw [if_pos hg4]
  · unfold is_ipv6_range
    rw [if_pos hg6]

/-- C7 witness: the theorem applied at "1-2-3". -/
theorem c7_witness :
    rangeGateV4 "1-2-3".data = false ∧ rangeGateV6 "1-2-3".data = false ∧
    (is_ipv4_range "1-2-3".data 0 true).1 = RESULT_FAILURE ∧
    (is_ipv6_range "1-2-3".data 0 true).1 = RESULT_FAILURE :=
  c7_multi_hyphen_rejected_by_gate "1-2-3".data 0 true (by decide)

/-- C8: the success/failure result of both range validators is the same for
    either value of the verbose flag; verbosity affects only the diagnostic
    output. -/
theorem c8_result_independent_of_verbose :
    ∀ (range_str : List Char) (prefix_length : Nat),
      (is_ipv4_range range_str prefix_length true).1 =
        (is_ipv4_range range_str prefix_length false).1 ∧
      (is_ipv6_range range_str prefix_length true).1 =
        (is_ipv6_range range_str prefix_length false).1 := by
  intro s p
  constructor
  · unfold is_ipv4_range
    repeat' split
    all_goals rfl
  · unfold is_ipv6_range
    repeat' split
    all_goals rfl

lemma emit_ne_nil {v : Bool} {m : RangeMsg} (h : emit v m ≠ []) : v = true := by
  cases v
  · simp [emit] at h
  · rfl

/-- C6: the range validators print a diagnostic only in verbose mode, and only
    for the four step-1..4 malformations (bad overall format, bad left
    endpoint, bad right endpoint, first address greater than the last); a
    step-5 containment failure — nonzero prefix length and the right endpoint
    not inside the network of the left endpoint with that prefix — returns
    failure with no message on any verbosity setting. -/
theorem c6_range_diagnostics_policy :
    ∀ (range_str : List Char) (prefix_length : Nat) (verbose : Bool),
      ((is_ipv4_range range_str prefix_length false).2 = [] ∧
       (is_ipv6_range range_str prefix_length false).2 = []) ∧
      ((is_ipv4_range range_str prefix_length verbose).2 ≠ [] →
        verbose = true ∧
        (is_ipv4_range range_str prefix_length verbose).1 = RESULT_FAILURE ∧
        (rangeGateV4 range_str = false ∨
         ¬ (is_ipv4_single (split_range range_str).1 = RESULT_SUCCESS ∧
            is_valid_address (cidr_from_str (split_range range_str).1) = RESULT_SUCCESS) ∨
         ¬ (is_ipv4_single (split_range range_str).2 = RESULT_SUCCESS ∧
            is_valid_address (cidr_from_str (split_range range_str).2) = RESULT_SUCCESS) ∨
         cidr_to_inaddr (cidr_from_str (split_range range_str).2) <
           cidr_to_inaddr (cidr_from_str (split_range range_str).1))) ∧
      ((is_ipv6_range range_str prefix_length verbose).2 ≠ [] →
        verbose = true ∧
        (is_ipv6_range range_str prefix_length verbose).1 = RESULT_FAILURE ∧
        (rangeGateV6 range_str = false ∨
         ¬ (is_ipv6_single (split_range range_str).1 = RESULT_SUCCESS ∧
            is_valid_address (cidr_from_str (split_range range_str).1) = RESULT_SUCCESS ∧
            duplicate_double_colons (split_range range_str).1 = RESULT_FAILURE) ∨
         ¬ (is_ipv6_single (split_range range_str).2 = RESULT_SUCCESS ∧
            is_valid_address (cidr_from_str (split_range range_str).2) = RESULT_SUCCESS ∧
            duplicate_double_colons (split_range range_str).2 = RESULT_FAILURE) ∨
         ¬ compare_ipv6 (cidr_to_in6addr (cidr_from_str (split_range range_str).1))
             (cidr_to_in6addr (cidr_from_str (split_range range_str).2)) ≤ 0)) ∧
      (rangeGateV4 range_str = true →
        (is_ipv4_single (split_range range_str).1 = RESULT_SUCCESS ∧
         is_valid_address (cidr_from_str (split_range range_str).1) = RESULT_SUCCESS) →
        (is_ipv4_single (split_range range_str).2 = RESULT_SUCCESS ∧
         is_valid_address (cidr_from_str (split_range range_str).2) = RESULT_SUCCESS) →
        cidr_to_inaddr (cidr_from_str (split_range range_str).1) ≤
          cidr_to_inaddr (cidr_from_str (split_range range_str).2) →
        0 < prefix_length →
        cidr_contains
          (cidr_addr_network (cidr_from_str
            ((split_range range_str).1 ++ '/' :: natDecimal prefix_length)))
          (cidr_from_str (split_range range_str).2) ≠ 0 →
        is_ipv4_range range_str prefix_length verbose = (RESULT_FAILURE, [])) ∧
      (rangeGateV6 range_str = true →
        (is_ipv6_single (split_range range_str).1 = RESULT_SUCCESS ∧
         is_valid_address (cidr_from_str (split_range range_str).1) = RESULT_SUCCESS ∧
         duplicate_double_colons (split_range range_str).1 = RESULT_FAILURE) →
        (is_ipv6_single (split_range range_str).2 = RESULT_SUCCESS ∧
         is_valid_address (cidr_from_str (split_range range_str).2) = RESULT_SUCCESS ∧
         duplicate_double_colons (split_range range_str).2 = RESULT_FAILURE) →
        compare_ipv6 (cidr_to_in6addr (cidr_from_str (split_range range_str).1))
          (cidr_to_in6addr (cidr_from_str (split_range range_str).2)) ≤ 0 →
        0 < prefix_length →
        cidr_contains
          (cidr_addr_network (cidr_from_str
            ((split_range range_str).1 ++ '/' :: natDecimal prefix_length)))
          (cidr_from_str (split_range range_str).2) ≠ 0 →
        is_ipv6_range range_str prefix_length verbose = (RESULT_FAILURE, [])) := by
  intro s p v
  refine ⟨⟨?_, ?_⟩, ?_, ?_, ?_, ?_⟩
  · unfold is_ipv4_range
    repeat' split
    all_goals rfl
  · unfold is_ipv6_range
    repeat' split
    all_goals rfl
  · intro hmsg
    by_cases hg : rangeGateV4 s = false
    · have h1 : is_ipv4_range s p v = (RESULT_FAILURE, emit v .malformedRange) := by
        unfold is_ipv4_range
        rw [if_pos hg]
      rw [h1] at hmsg
      exact ⟨emit_ne_nil hmsg, by rw [h1], Or.inl hg⟩
    · by_cases hL : (is_ipv4_single (split_range s).1 = RESULT_SUCCESS ∧
          is_valid_address (cidr_from_str (split_range s).1) = RESULT_SUCCESS)
      · by_cases hR : (is_ipv4_single (split_range s).2 = RESULT_SUCCESS ∧
            is_valid_address (cidr_from_str (split_range s).2) = RESULT_SUCCESS)
        · by_cases hord : cidr_to_inaddr (cidr_from_str (split_range s).1) ≤
              cidr_to_inaddr (cidr_from_str (split_range s).2)
          · exfalso
            apply hmsg
            unfold is_ipv4_range
            rw [if_neg hg, if_neg (not_not_intro hL), if_neg (not_not_intro hR), if_pos hord]
            by_cases hp : 0 < p
            · rw [if_pos hp]
              split
              · rfl
              · rfl
            · rw [if_neg hp]
          · have h1 : is_ipv4_range s p v = (RESULT_FAILURE, emit v .firstGreater) := by
              unfold is_ipv4_range
              rw [if_neg hg, if_neg (not_not_intro hL), if_neg (not_not_intro hR), if_neg hord]
            rw [h1] at hmsg
            exact ⟨emit_ne_nil hmsg, by rw [h1],
              Or.inr (Or.inr (Or.inr (Nat.not_le.mp hord)))⟩
        · have h1 : is_ipv4_range s p v = (RESULT_FAILURE, emit v .badRightAddr) := by
            unfold is_ipv4_range
            rw [if_neg hg, if_neg (not_not_intro hL), if_pos hR]
          rw [h1] at hmsg
          exact ⟨emit_ne_nil hmsg, by rw [h1], Or.inr (Or.inr (Or.inl hR))⟩
      · have h1 : is_ipv4_range s p v = (RESULT_FAILURE, emit v .badLeftAddr) := by
          unfold is_ipv4_range
          rw [if_neg hg, if_pos hL]
        rw [h1] at hmsg
        exact ⟨emit_ne_nil hmsg, by rw [h1], Or.inr (Or.inl hL)⟩
  · intro hmsg
    by_cases hg : rangeGateV6 s = false
    · have h1 : is_ipv6_range s p v = (RESULT_FAILURE, emit v .malformedRange) := by
        unfold is_ipv6_range
        rw [if_pos hg]
      rw [h1] at hmsg
      exact ⟨emit_ne_nil hmsg, by rw [h1], Or.inl hg⟩
    · by_cases hL : (is_ipv6_single (split_range s).1 = RESULT_SUCCESS ∧
          is_valid_address (cidr_from_str (split_range s).1) = RESULT_SUCCESS ∧
          duplicate_double_colons (split_range s).1 = RESULT_FAILURE)
      · by_cases hR : (is_ipv6_single (split_range s).2 = RESULT_SUCCESS ∧
            is_valid_address (cidr_from_str (split_range s).2) = RESULT_SUCCESS ∧
            duplicate_double_colons (split_range s).2 = RESULT_FAILURE)
        · by_cases hord : compare_ipv6 (cidr_to_in6addr (cidr_from_str (split_range s).1))
              (cidr_to_in6addr (cidr_from_str (split_range s).2)) ≤ 0
          · exfalso
            apply hmsg
            unfold is_ipv6_range
            rw [if_neg hg, if_neg (not_not_intro hL), if_neg (not_not_intro hR), if_pos hord]
            by_cases hp : 0 < p
            · rw [if_pos hp]
              split
              · rfl
              · rfl
            · rw [if_neg hp]
          · have h1 : is_ipv6_range s p v = (RESULT_FAILURE, emit v .firstGreater) := by
              unfold is_ipv6_range
              rw [if_neg hg, if_neg (not_not_intro hL), if_neg (not_not_intro hR), if_neg hord]
            rw [h1] at hmsg
            exact ⟨emit_ne_nil hmsg, by rw [h1], Or.inr (Or.inr (Or.inr hord))⟩
        · have h1 : is_ipv6_range s p v = (RESULT_FAILURE, emit v .badRightAddr) := by
            unfold is_ipv6_range
            rw [if_neg hg, if_neg (not_not_intro hL), if_pos hR]
          rw [h1] at hmsg
          exact ⟨emit_ne_nil hmsg, by rw [h1], Or.inr (Or.inr (Or.inl hR))⟩
      · have h1 : is_ipv6_range s p v = (RESULT_FAILURE, emit v .badLeftAddr) := by
          unfold is_ipv6_range
          rw [if_neg hg, if_pos hL]
        rw [h1] at hmsg
        exact ⟨emit_ne_nil hmsg, by rw [h1], Or.inr (Or.inl hL)⟩
  · intro hg hL hR hord hp hnc
    unfold is_ipv4_range
    rw [if_neg (by simp [hg]), if_neg (not_not_intro hL), if_neg (not_not_intro hR),
      if_pos hord, if_pos hp, if_neg hnc]
  · intro hg hL hR hord hp hnc
    unfold is_ipv6_range
    rw [if_neg (by simp [hg]), if_neg (not_not_intro hL), if_neg (not_not_intro hR),
      if_pos hord, if_pos hp, if_neg hnc]

/-- C6 witness: quiet runs, two verbose malformations, and two silent
    containment failures, via the theorem at concrete ranges. -/
theorem c6_witness :
    ((is_ipv4_range "192.0.2.1-192.0.2.10".data 24 false).2 = [] ∧
     (is_ipv6_range "2001:db8::1-2001:db8::10".data 64 false).2 = []) ∧
    (is_ipv4_range "x".data 0 true).1 = RESULT_FAILURE ∧
    (is_ipv6_range "x".data 0 true).1 = RESULT_FAILURE ∧
    is_ipv4_range "192.0.2.1-192.0.3.10".data 24 true = (RESULT_FAILURE, []) ∧
    is_ipv6_range "2001:db8::1-2001:db9::10".data 64 true = (RESULT_FAILURE, []) := by
  refine ⟨⟨((c6_range_diagnostics_policy "192.0.2.1-192.0.2.10".data 24 false).1).1,
      ((c6_range_diagnostics_policy "2001:db8::1-2001:db8::10".data 64 false).1).2⟩,
    ?_, ?_, ?_, ?_⟩
  · exact ((c6_range_diagnostics_policy "x".data 0 true).2.1 (by decide)).2.1
  · exact ((c6_range_diagnostics_policy "x".data 0 true).2.2.1 (by decide)).2.1
  · exact (c6_range_diagnostics_policy "192.0.2.1-192.0.3.10".data 24 true).2.2.2.1
      (by decide) (by decide) (by decide) (by decide) (by decide) (by decide)
  · exact (c6_range_diagnostics_policy "2001:db8::1-2001:db9::10".data 64 true).2.2.2.2
      (by decide) (by decide) (by decide) (by decide) (by decide) (by decide)

lemma fail_fst_ne_success {m : List RangeMsg} :
    ¬ ((RESULT_FAILURE, m).1 = RESULT_SUCCESS) := by
  simp [RESULT_FAILURE, RESULT_SUCCESS]

/-- C2: once both endpoints pass their per-endpoint checks, the validators
    compare the parsed values — IPv4 as 32-bit host-byte-order integers after
    conversion, IPv6 byte-by-byte on the 16-byte form, most significant byte
    first — and accept (at zero prefix length) exactly when left ≤ right,
    equal endpoints permitted; whenever left > right the call fails; and the
    byte-wise comparison agrees with the unsigned numeric order of the
    addresses. -/
theorem c2_range_ordering :
    (∀ (s l r : List Char) (v : Bool),
      rangeGateV4 s = true → split_range s = (l, r) →
      is_ipv4_single l = RESULT_SUCCESS →
      is_valid_address (cidr_from_str l) = RESULT_SUCCESS →
      is_ipv4_single r = RESULT_SUCCESS →
      is_valid_address (cidr_from_str r) = RESULT_SUCCESS →
      ((is_ipv4_range s 0 v).1 = RESULT_SUCCESS ↔
        (cidr_from_str l).addr ≤ (cidr_from_str r).addr) ∧
      (∀ p, (cidr_from_str r).addr < (cidr_from_str l).addr →
        (is_ipv4_range s p v).1 = RESULT_FAILURE)) ∧
    (∀ (s l r : List Char) (v : Bool),
      rangeGateV6 s = true → split_range s = (l, r) →
      is_ipv6_single l = RESULT_SUCCESS →
      is_valid_address (cidr_from_str l) = RESULT_SUCCESS →
      duplicate_double_colons l = RESULT_FAILURE →
      is_ipv6_single r = RESULT_SUCCESS →
      is_valid_address (cidr_from_str r) = RESULT_SUCCESS →
      duplicate_double_colons r = RESULT_FAILURE →
      ((is_ipv6_range s 0 v).1 = RESULT_SUCCESS ↔
        (cidr_from_str l).addr ≤ (cidr_from_str r).addr) ∧
      (∀ p, (cidr_from_str r).addr < (cidr_from_str l).addr →
        (is_ipv6_range s p v).1 = RESULT_FAILURE)) ∧
    (∀ a b : Nat, a < 2 ^ 128 → b < 2 ^ 128 →
      (compare_ipv6 (toBytesBE 16 a) (toBytesBE 16 b) ≤ 0 ↔ a ≤ b) ∧
      (compare_ipv6 (toBytesBE 16 a) (toBytesBE 16 b) = 0 ↔ a = b)) := by
  refine ⟨?_, ?_, fun a b ha hb => compare_in6_le_iff ha hb⟩
  · intro s l r v hg hsplit hsl hvl hsr hvr
    constructor
    · unfold is_ipv4_range
      simp only [hsplit, hg, hsl, hvl, hsr, hvr]
      rw [if_neg (by simp), if_neg (by simp), if_neg (by simp)]
      by_cases hord : cidr_to_inaddr (cidr_from_str l) ≤ cidr_to_inaddr (cidr_from_str r)
      · rw [if_pos hord, if_neg (by omega)]
        exact iff_of_true rfl hord
      · rw [if_neg hord]
        exact iff_of_false fail_fst_ne_success hord
    · intro p hlt
      have hlt' : cidr_to_inaddr (cidr_from_str r) < cidr_to_inaddr (cidr_from_str l) := hlt
      unfold is_ipv4_range
      simp only [hsplit, hg, hsl, hvl, hsr, hvr]
      rw [if_neg (by simp), if_neg (by simp), if_neg (by simp),
        if_neg (Nat.not_le.mpr hlt')]
  · intro s l r v hg hsplit hsl hvl hdl hsr hvr hdr
    have hbl := cidr_from_str_addr_lt l
    have hbr := cidr_from_str_addr_lt r
    have hiff : compare_ipv6 (cidr_to_in6addr (cidr_from_str l))
        (cidr_to_in6addr (cidr_from_str r)) ≤ 0 ↔
        (cidr_from_str l).addr ≤ (cidr_from_str r).addr :=
      (compare_in6_le_iff hbl hbr).1
    constructor
    · unfold is_ipv6_range
      simp only [hsplit, hg, hsl, hvl, hdl, hsr, hvr, hdr]
      rw [if_neg (by simp), if_neg (by simp), if_neg (by simp)]
      by_cases hord : (cidr_from_str l).addr ≤ (cidr_from_str r).addr
      · rw [if_pos (hiff.mpr hord), if_neg (by omega)]
        exact iff_of_true rfl hord
      · rw [if_neg (fun hle => hord (hiff.mp hle))]
        exact iff_of_false fail_fst_ne_success hord
    · intro p hlt
      unfold is_ipv6_range
      simp only [hsplit, hg, hsl, hvl, hdl, hsr, hvr, hdr]
      rw [if_neg (by simp), if_neg (by simp), if_neg (by simp),
        if_neg (fun hle => absurd (hiff.mp hle) (Nat.not_le.mpr hlt))]

/-- C2 witness: the theorem applied at concrete in-order and reversed IPv4 and
    IPv6 ranges and at a concrete byte-comparison pair. -/
theorem c2_witness :
    ((is_ipv4_range "192.0.2.1-192.0.2.10".data 0 false).1 = RESULT_SUCCESS ↔
      (cidr_from_str "192.0.2.1".data).addr ≤ (cidr_from_str "192.0.2.10".data).addr) ∧
    (is_ipv4_range "192.0.2.10-192.0.2.1".data 7 false).1 = RESULT_FAILURE ∧
    ((is_ipv6_range "2001:db8::1-2001:db8::10".data 0 true).1 = RESULT_SUCCESS ↔
      (cidr_from_str "2001:db8::1".data).addr ≤ (cidr_from_str "2001:db8::10".data).addr) ∧
    (is_ipv6_range "2001:db8::10-2001:db8::1".data 5 true).1 = RESULT_FAILURE ∧
    (compare_ipv6 (toBytesBE 16 3) (toBytesBE 16 7) ≤ 0 ↔ 3 ≤ 7) :=
  ⟨(c2_range_ordering.1 "192.0.2.1-192.0.2.10".data "192.0.2.1".data "192.0.2.10".data
      false (by decide) (by decide) (by decide) (by decide) (by decide) (by decide)).1,
   (c2_range_ordering.1 "192.0.2.10-192.0.2.1".data "192.0.2.10".data "192.0.2.1".data
      false (by decide) (by decide) (by decide) (by decide) (by decide) (by decide)).2
      7 (by decide),
   (c2_range_ordering.2.1 "2001:db8::1-2001:db8::10".data "2001:db8::1".data
      "2001:db8::10".data true (by decide) (by decide) (by decide) (by decide) (by decide)
      (by decide) (by decide) (by decide)).1,
   (c2_range_ordering.2.1 "2001:db8::10-2001:db8::1".data "2001:db8::10".data
      "2001:db8::1".data true (by decide) (by decide) (by decide) (by decide) (by decide)
      (by decide) (by decide) (by decide)).2 5 (by decide),
   (c2_range_ordering.2.2 3 7 (by decide) (by decide)).1⟩

end Ipaddrcheck
